import Mathlib

/-!
# SignSync: presence registry, call router and lobby client

A shallow embedding of `src/server/server.js`, of the call handling of
`src/public/lobby.js` and `src/public/app.js`, and of `addText` of
`src/public/sign-language-detector.js`.

* `JsMap` embeds the JavaScript `Map` that backs `onlineUsers`: an
  insertion-ordered association list without duplicate keys.
* `ServerState` is the registry together with the part of the socket.io
  server the handlers read and write: the connected sockets and the rooms each
  one is in.
* Every `socket.on(...)` handler is a function from the state before to the
  state after and the list of emissions it made, in program order.
* Values the handlers read from the clock and the random generator are passed
  in as an `Env`.
* `Page` is one browser tab: the fields of `LobbyManager` and `VideoChat` the
  call handlers use. A client handler is a function from the page before to
  the page after and the list of its effects.
-/

namespace SignSync

/-! ## Identifiers -/

/-- The id socket.io gives a connection (`socket.id`): a string that is never
empty, so a socket id is always truthy in JavaScript. -/
structure SocketId where
  id : String
  nonempty : id ≠ ""
deriving DecidableEq

/-- JavaScript truthiness of a variable that holds `null` or a socket id
(`if (targetSocketId)`): `null` and the empty string are falsy. -/
def truthy : Option SocketId → Bool
  | none => false
  | some s => s.id != ""

/-! ## The JavaScript `Map` -/

/-- Replace the value of the first entry with key `k`, or append a new entry
when there is none (what `Map.prototype.set` does to the entry order). -/
def setRaw {κ β : Type} [DecidableEq κ] (k : κ) (v : β) : List (κ × β) → List (κ × β)
  | [] => [(k, v)]
  | e :: rest => if e.1 = k then (k, v) :: rest else e :: setRaw k v rest

/-- Remove the entry with key `k`, if any (`Map.prototype.delete`). -/
def deleteRaw {κ β : Type} [DecidableEq κ] (k : κ) : List (κ × β) → List (κ × β)
  | [] => []
  | e :: rest => if e.1 = k then rest else e :: deleteRaw k rest

/-- The value stored under `k`, if any (`Map.prototype.get`; `none` is
`undefined`). -/
def getRaw {κ β : Type} [DecidableEq κ] (k : κ) : List (κ × β) → Option β
  | [] => none
  | e :: rest => if e.1 = k then some e.2 else getRaw k rest

theorem keys_setRaw {κ β : Type} [DecidableEq κ] (k : κ) (v : β) (l : List (κ × β)) :
    (setRaw k v l).map Prod.fst =
      if k ∈ l.map Prod.fst then l.map Prod.fst else l.map Prod.fst ++ [k] := by
  induction l with
  | nil => simp [setRaw]
  | cons e rest ih =>
    by_cases h : e.1 = k
    · simp [setRaw, h]
    · have h' : ¬ k = e.1 := fun hk => h hk.symm
      simp only [setRaw, h, if_false, List.map_cons, ih, List.mem_cons, h', false_or]
      split <;> simp

theorem nodup_setRaw {κ β : Type} [DecidableEq κ] (k : κ) (v : β) (l : List (κ × β))
    (h : (l.map Prod.fst).Nodup) : ((setRaw k v l).map Prod.fst).Nodup := by
  rw [keys_setRaw]
  split
  · exact h
  · rename_i hk
    exact List.Nodup.append h (List.nodup_singleton k) (by simpa using hk)

theorem keys_deleteRaw {κ β : Type} [DecidableEq κ] (k : κ) (l : List (κ × β)) :
    (deleteRaw k l).map Prod.fst = (l.map Prod.fst).erase k := by
  induction l with
  | nil => simp [deleteRaw]
  | cons e rest ih =>
    by_cases h : e.1 = k
    · simp [deleteRaw, h]
    · simp [deleteRaw, h, ih, List.erase_cons_tail]

theorem nodup_deleteRaw {κ β : Type} [DecidableEq κ] (k : κ) (l : List (κ × β))
    (h : (l.map Prod.fst).Nodup) : ((deleteRaw k l).map Prod.fst).Nodup := by
  rw [keys_deleteRaw]
  exact h.erase k

/-- A JavaScript `Map`: its entries in insertion order, no key twice. -/
structure JsMap (κ β : Type) where
  entries : List (κ × β)
  nodupKeys : (entries.map Prod.fst).Nodup

namespace JsMap

variable {κ β : Type} [DecidableEq κ]

/-- The map `new Map()`. -/
def empty : JsMap κ β := ⟨[], List.nodup_nil⟩

/-- The map after `m.set(k, v)`. -/
def set (m : JsMap κ β) (k : κ) (v : β) : JsMap κ β :=
  ⟨setRaw k v m.entries, nodup_setRaw k v m.entries m.nodupKeys⟩

/-- The map after `m.delete(k)`. -/
def delete (m : JsMap κ β) (k : κ) : JsMap κ β :=
  ⟨deleteRaw k m.entries, nodup_deleteRaw k m.entries m.nodupKeys⟩

/-- The result of `m.get(k)`. -/
def get (m : JsMap κ β) (k : κ) : Option β := getRaw k m.entries

/-- The sequence `m.values()`. -/
def values (m : JsMap κ β) : List β := m.entries.map Prod.snd

/-- The sequence `m.keys()`. -/
def keys (m : JsMap κ β) : List κ := m.entries.map Prod.fst

end JsMap

/-! ## Data model -/

/-- The object stored in `onlineUsers` for a connection (server.js, lines
23-29). `status` is one of the strings the server writes ('online', 'busy',
'in-call'); the code treats it as an arbitrary string. -/
structure User where
  socketId : SocketId
  userId : String
  userName : String
  status : String
  isAvailable : Bool
deriving DecidableEq

/-- Payload of `join-lobby`. -/
structure JoinData where
  userId : String
  userName : String
deriving DecidableEq

/-- Payload of `request-call`, with every field of the message catalogue. -/
structure RequestCallData where
  toUserId : String
  fromUserId : String
  fromUserName : String
  callId : String
deriving DecidableEq

/-- Payload of `accept-call`. -/
structure AcceptCallData where
  callId : String
  fromUserId : String
  toUserId : String
deriving DecidableEq

/-- Payload of `reject-call`. -/
structure RejectCallData where
  callId : String
  fromUserId : String
deriving DecidableEq

/-- Payload of `end-call`. -/
structure EndCallData where
  callId : String
deriving DecidableEq

/-- Payload of `webrtc-signal` as the server receives it; `signal` is opaque
to the server. -/
structure SignalData where
  toUserId : String
  signal : String
  callId : String
deriving DecidableEq

/-- The messages the server emits, with their payloads. In `callStarted` an
element of `users` is `none` where the code put `undefined` in the array. -/
inductive Msg where
  | usersUpdate (users : List User)
  | lobbyWelcome (message : String) (users : List User)
  | incomingCall (fromUserId fromUserName callId timestamp : String)
  | callRequestSent (toUserId message : String)
  | callError (message : String)
  | callStarted (callId roomId : String) (users : List (Option User))
  | callRejected (callId message : String)
  | callEnded (callId message : String)
  | webrtcSignal (fromUserId signal callId : String)
deriving DecidableEq

/-- How an emission was addressed: `socket.emit`, `io.to(room).emit` or
`io.emit`. -/
inductive Target where
  | socket (s : SocketId)
  | room (r : String)
  | all
deriving DecidableEq

/-- One emission: how it was addressed, the message, and the connections it
reaches, resolved at the moment of the emit. -/
structure Sent where
  target : Target
  msg : Msg
  recipients : List SocketId
deriving DecidableEq

/-- What a handler reads from outside the program: `Date.now()`,
`Math.random().toString(36)` and `new Date().toISOString()`. -/
structure Env where
  now : Nat
  random36 : String
  isoTime : String

/-- The state the handlers share: `onlineUsers`, and the connected sockets of
the socket.io server, each with the rooms it is in (a socket is put in the
room named by its own id when it connects). -/
structure ServerState where
  onlineUsers : JsMap SocketId User
  sockets : JsMap SocketId (List String)

/-- The server right after start-up: nobody registered, nobody connected. -/
def ServerState.init : ServerState := ⟨JsMap.empty, JsMap.empty⟩

/-! ## socket.io primitives -/

/-- The sockets in room `r`: the recipients of `io.to(r).emit(...)`. -/
def roomMembers (sockets : JsMap SocketId (List String)) (r : String) : List SocketId :=
  (sockets.entries.filter (fun e => decide (r ∈ e.2))).map Prod.fst

/-- Effect of `s.join(r)` for a socket that is connected; nothing happens for
an id that names no connected socket (the `?.` of line 102). -/
def joinRoom (sockets : JsMap SocketId (List String)) (s : SocketId) (r : String) :
    JsMap SocketId (List String) :=
  match sockets.get s with
  | some rooms => sockets.set s (if r ∈ rooms then rooms else rooms ++ [r])
  | none => sockets

/-- Effect of `s.leave(r)`. -/
def leaveRoom (sockets : JsMap SocketId (List String)) (s : SocketId) (r : String) :
    JsMap SocketId (List String) :=
  match sockets.get s with
  | some rooms => sockets.set s (rooms.filter (fun x => decide (x ≠ r)))
  | none => sockets

/-- The emission `socket.emit(msg)`. -/
def emitToSocket (socket : SocketId) (msg : Msg) : Sent :=
  ⟨Target.socket socket, msg, [socket]⟩

/-- The emission `io.to(r).emit(msg)` in state `st`. -/
def emitToRoom (st : ServerState) (r : String) (msg : Msg) : Sent :=
  ⟨Target.room r, msg, roomMembers st.sockets r⟩

/-- The emission `io.emit(msg)` in state `st`: every connected socket. -/
def emitToAll (st : ServerState) (msg : Msg) : Sent :=
  ⟨Target.all, msg, st.sockets.keys⟩

/-! ## Helper functions of server.js (lines 213-240) -/

/-- Function `getUsersList` (lines 219-227). -/
def getUsersList (onlineUsers : JsMap SocketId User) : List User :=
  onlineUsers.values.map fun user =>
    { userId := user.userId
      userName := user.userName
      status := user.status
      isAvailable := user.isAvailable
      socketId := user.socketId }

/-- Function `broadcastUserList` (lines 214-217). -/
def broadcastUserList (st : ServerState) : Sent :=
  let usersList := getUsersList st.onlineUsers
  emitToAll st (Msg.usersUpdate usersList)

/-- Function `updateUserStatus` (lines 229-236), on the registry. -/
def updateUserStatus (onlineUsers : JsMap SocketId User) (socketId : SocketId)
    (status : String) : JsMap SocketId User :=
  match onlineUsers.get socketId with
  | some user =>
    onlineUsers.set socketId
      { user with status := status, isAvailable := decide (status = "online") }
  | none => onlineUsers

/-- JavaScript `s.substr(start, length)` for in-range arguments. -/
def substr (s : String) (start length : Nat) : String :=
  (s.drop start).take length

/-- Function `generateCallId` (lines 238-240). -/
def generateCallId (env : Env) : String :=
  toString env.now ++ "-" ++ substr env.random36 2 9

/-- The loop that five handlers share (lines 48-54): the key of the first
entry of `onlineUsers` whose `userId` is `userId`, or `null`. -/
def findSocketByUserId (onlineUsers : JsMap SocketId User) (userId : String) :
    Option SocketId :=
  (onlineUsers.entries.find? (fun e => decide (e.2.userId = userId))).map Prod.fst

/-! ## Handlers -/

/-- Socket.io accepts a connection: the socket is registered and joins the
room named by its id. The handler body (lines 15-16) only installs listeners. -/
def connect (socket : SocketId) (st : ServerState) : ServerState × List Sent :=
  ({ st with sockets := st.sockets.set socket [socket.id] }, [])

/-- Handler of `join-lobby` (lines 19-39). -/
def joinLobby (socket : SocketId) (userData : JoinData) (st : ServerState) :
    ServerState × List Sent :=
  let st1 : ServerState :=
    { st with
      onlineUsers := st.onlineUsers.set socket
        { socketId := socket
          userId := userData.userId
          userName := userData.userName
          status := "online"
          isAvailable := true } }
  (st1,
    [ broadcastUserList st1,
      emitToSocket socket
        (Msg.lobbyWelcome ("Welcome to the lobby, " ++ userData.userName ++ "!")
          (getUsersList st1.onlineUsers)) ])

/-- Handler of `request-call` (lines 42-77). -/
def requestCall (env : Env) (socket : SocketId) (data : RequestCallData)
    (st : ServerState) : ServerState × List Sent :=
  let targetSocketId := findSocketByUserId st.onlineUsers data.toUserId
  match targetSocketId, truthy targetSocketId with
  | some target, true =>
    let incoming := emitToRoom st target.id
      (Msg.incomingCall data.fromUserId data.fromUserName (generateCallId env) env.isoTime)
    let st1 : ServerState :=
      { st with onlineUsers := updateUserStatus st.onlineUsers socket "busy" }
    (st1,
      [ incoming,
        emitToSocket socket (Msg.callRequestSent data.toUserId "Call request sent!") ])
  | _, _ =>
    (st, [emitToSocket socket (Msg.callError "User is not available")])

/-- Handler of `accept-call` (lines 80-121). -/
def acceptCall (socket : SocketId) (data : AcceptCallData) (st : ServerState) :
    ServerState × List Sent :=
  let callerSocketId := findSocketByUserId st.onlineUsers data.fromUserId
  let calleeSocketId : Option SocketId := some socket
  match callerSocketId, truthy callerSocketId && truthy calleeSocketId with
  | some caller, true =>
    let roomId := "call-" ++ data.callId
    let sockets1 := joinRoom st.sockets socket roomId
    let sockets2 := joinRoom sockets1 caller roomId
    let users1 := updateUserStatus st.onlineUsers caller "in-call"
    let users2 := updateUserStatus users1 socket "in-call"
    let st1 : ServerState := { onlineUsers := users2, sockets := sockets2 }
    (st1,
      [ emitToRoom st1 roomId
          (Msg.callStarted data.callId roomId [users2.get caller, users2.get socket]),
        broadcastUserList st1 ])
  | _, _ => (st, [])

/-- Handler of `reject-call` (lines 124-149). -/
def rejectCall (socket : SocketId) (data : RejectCallData) (st : ServerState) :
    ServerState × List Sent :=
  let callerSocketId := findSocketByUserId st.onlineUsers data.fromUserId
  match callerSocketId, truthy callerSocketId with
  | some caller, true =>
    let rejected := emitToRoom st caller.id
      (Msg.callRejected data.callId "Call was rejected")
    let users1 := updateUserStatus st.onlineUsers caller "online"
    let users2 := updateUserStatus users1 socket "online"
    let st1 : ServerState := { st with onlineUsers := users2 }
    (st1, [rejected, broadcastUserList st1])
  | _, _ => (st, [])

/-- Handler of `end-call` (lines 152-168). -/
def endCall (socket : SocketId) (data : EndCallData) (st : ServerState) :
    ServerState × List Sent :=
  let roomId := "call-" ++ data.callId
  let ended := emitToRoom st roomId (Msg.callEnded data.callId "Call ended")
  let st1 : ServerState :=
    { onlineUsers := updateUserStatus st.onlineUsers socket "online"
      sockets := leaveRoom st.sockets socket roomId }
  (st1, [ended, broadcastUserList st1])

/-- Handler of `webrtc-signal` (lines 171-190). Reading `.userId` of the
`undefined` that `onlineUsers.get(socket.id)` returns for an unregistered
sender throws a `TypeError`: the `error` result. -/
def webrtcSignal (socket : SocketId) (data : SignalData) (st : ServerState) :
    Except String (ServerState × List Sent) :=
  let targetSocketId := findSocketByUserId st.onlineUsers data.toUserId
  match targetSocketId, truthy targetSocketId with
  | some target, true =>
    match st.onlineUsers.get socket with
    | some sender =>
      Except.ok (st,
        [emitToRoom st target.id (Msg.webrtcSignal sender.userId data.signal data.callId)])
    | none => Except.error "TypeError: cannot read userId of undefined"
  | _, _ => Except.ok (st, [])

/-- Handler of `leave-lobby` (lines 193-200). -/
def leaveLobby (socket : SocketId) (st : ServerState) : ServerState × List Sent :=
  match st.onlineUsers.get socket with
  | some _user =>
    let st1 : ServerState := { st with onlineUsers := st.onlineUsers.delete socket }
    (st1, [broadcastUserList st1])
  | none => (st, [])

/-- A connection closes: socket.io takes the socket out of every room and out
of the set of connected sockets and then runs the handler of `disconnect`
(lines 203-211). -/
def disconnect (socket : SocketId) (st : ServerState) : ServerState × List Sent :=
  let st0 : ServerState := { st with sockets := st.sockets.delete socket }
  match st0.onlineUsers.get socket with
  | some _user =>
    let st1 : ServerState := { st0 with onlineUsers := st0.onlineUsers.delete socket }
    (st1, [broadcastUserList st1])
  | none => (st0, [])

/-! ## Sequences of lobby events -/

/-- The lobby events a connection can cause. -/
inductive LobbyEvent where
  | join (userData : JoinData)
  | leave
  | disconnect
deriving DecidableEq

/-- The state after connection `e.1` causes the lobby event `e.2`. -/
def applyLobbyEvent (st : ServerState) (e : SocketId × LobbyEvent) : ServerState :=
  match e.2 with
  | LobbyEvent.join userData => (joinLobby e.1 userData st).1
  | LobbyEvent.leave => (leaveLobby e.1 st).1
  | LobbyEvent.disconnect => (disconnect e.1 st).1

/-- The state after a sequence of lobby events, handled one after the other. -/
def runLobbyEvents (st : ServerState) (evs : List (SocketId × LobbyEvent)) : ServerState :=
  evs.foldl applyLobbyEvent st

/-- Read off the event sequence alone: the payload of the join of `c` that is
still in force, that is, the most recent event of `c` when that event is a
join; `none` when `c` never joined or has left or disconnected since. -/
def currentJoin (evs : List (SocketId × LobbyEvent)) (c : SocketId) : Option JoinData :=
  match evs.reverse.find? (fun e => decide (e.1 = c)) with
  | some (_, LobbyEvent.join userData) => some userData
  | _ => none

/-- The record `join-lobby` stores for connection `c` and payload `userData`. -/
def freshRecord (c : SocketId) (userData : JoinData) : User :=
  ⟨c, userData.userId, userData.userName, "online", true⟩

/-! ## Messages and reachable states -/

/-- The messages of the catalogue a client can send on its connection. -/
inductive Event where
  | joinLobby (userData : JoinData)
  | requestCall (data : RequestCallData)
  | acceptCall (data : AcceptCallData)
  | rejectCall (data : RejectCallData)
  | endCall (data : EndCallData)
  | webrtcSignal (data : SignalData)
  | leaveLobby
deriving DecidableEq

/-- The handler socket.io runs when `socket` sends the message `ev`. -/
def handle (env : Env) (socket : SocketId) (ev : Event) (st : ServerState) :
    Except String (ServerState × List Sent) :=
  match ev with
  | Event.joinLobby userData => Except.ok (joinLobby socket userData st)
  | Event.requestCall data => Except.ok (requestCall env socket data st)
  | Event.acceptCall data => Except.ok (acceptCall socket data st)
  | Event.rejectCall data => Except.ok (rejectCall socket data st)
  | Event.endCall data => Except.ok (endCall socket data st)
  | Event.webrtcSignal data => webrtcSignal socket data st
  | Event.leaveLobby => Except.ok (leaveLobby socket st)

/-- The states the server can be in: it starts empty; a socket that is not
connected connects; a connected socket sends a message whose handler returns;
a connected socket disconnects. -/
inductive Reachable : ServerState → Prop where
  | init : Reachable ServerState.init
  | connect (st : ServerState) (c : SocketId) :
      Reachable st → c ∉ st.sockets.keys → Reachable (connect c st).1
  | handle (st st' : ServerState) (out : List Sent) (env : Env) (c : SocketId) (ev : Event) :
      Reachable st → c ∈ st.sockets.keys → handle env c ev st = Except.ok (st', out) →
      Reachable st'
  | disconnect (st : ServerState) (c : SocketId) :
      Reachable st → c ∈ st.sockets.keys → Reachable (disconnect c st).1

/-! ## Room names -/

/-- Whether a room name has the form of the names `accept-call` makes
(`call-` followed by a call id). -/
def isCallRoom (r : String) : Bool :=
  "call-".data.isPrefixOf r.data

/-! ## The browser client: `LobbyManager` (lobby.js) and `VideoChat` (app.js)

The model starts after `LobbyManager.initialize`: the page has loaded, so
`window.lobbyManager` and `window.videoChat` are set, and the user has logged
in, so `currentUser` and `socket` are set. Updates of the page (DOM), the
ringtone and console output are left out; the elements the handlers look up
are the ones `setupDOM` creates. -/

/-- The fields of the identity provider's user object the lobby reads.
`none` is `null`. -/
structure CurrentUser where
  uid : String
  displayName : Option String
  email : Option String
deriving DecidableEq

/-- The object `LobbyManager.activeCall`; a field is `none` when the object
has no such property. -/
structure ActiveCall where
  toUserId : Option String
  toUserName : Option String
  fromUserId : Option String
  fromUserName : Option String
  callId : String
  roomId : Option String
deriving DecidableEq

/-- The `signal` field of a `webrtc-signal`: a session description of type
'offer' or 'answer', or an ICE candidate. The descriptions and candidates
themselves are opaque. -/
inductive Signal where
  | offer (sdp : String)
  | answer (sdp : String)
  | candidate (candidate : String)
deriving DecidableEq

/-- The messages the client emits on its socket, with their payloads. In
`webrtcSignal` the callId is `lobbyManager.activeCall?.callId`, `none` when
there is no active call. -/
inductive ClientMsg where
  | requestCall (toUserId fromUserId : String) (fromUserName : Option String)
      (callId : String)
  | acceptCall (callId : String) (fromUserId : Option String) (toUserId : String)
  | rejectCall (callId : String) (fromUserId : Option String)
  | endCall (callId : String)
  | webrtcSignal (toUserId : String) (signal : Signal) (callId : Option String)
deriving DecidableEq

/-- What a client handler does to the outside, in program order:
`socket.emit`, `alert`, `setTimeout` with the auto-reject callback of
`handleIncomingCall`, `close()` on a peer connection, stopping the tracks
of the camera stream, `new RTCPeerConnection` (the new object is named by an
id), the start of the promise chain `createOffer().then(...)` that ends in
sending the offer to `toUserId`, handing a received signal to a peer
connection (`setRemoteDescription` or `addIceCandidate`, and for an offer the
chain that answers it), and `restartIce()`. -/
inductive Effect where
  | emit (msg : ClientMsg)
  | alert (text : String)
  | setTimeout (ms : Nat)
  | closePeer (pc : Nat)
  | stopTracks
  | createPeer (pc : Nat)
  | createOffer (pc : Nat) (toUserId : String)
  | applySignal (pc : Nat) (fromUserId : String) (signal : Signal)
  | restartIce (pc : Nat)
deriving DecidableEq

/-- The fields of `LobbyManager` the call handlers use. -/
structure LobbyManager where
  currentUser : CurrentUser
  callState : String
  activeCall : Option ActiveCall
deriving DecidableEq

/-- The fields of `VideoChat` the call handlers use: whether a camera stream
is held (`myStream`), the peer connection object, by an id, or `null`, and
`friendInfo` (userId and userName). -/
structure VideoChat where
  myStream : Bool
  peerConnection : Option Nat
  friendInfo : Option (String × String)
deriving DecidableEq

/-- One browser tab: `window.lobbyManager` and `window.videoChat`. -/
structure Page where
  lobbyManager : LobbyManager
  videoChat : VideoChat
deriving DecidableEq

/-- JavaScript `a || b` on values that are a string or `null`: `a` when it is
a non-empty string, else `b`. -/
def jsOr (a b : Option String) : Option String :=
  match a with
  | some s => if s = "" then b else some s
  | none => b

/-- Method `resetCallState` (lobby.js, lines 367-374). -/
def LobbyManager.resetCallState (p : Page) : Page :=
  { p with lobbyManager := { p.lobbyManager with callState := "idle", activeCall := none } }

/-- Method `requestCall` (lobby.js, lines 238-264); `confirmed` is what the
user answers to the `confirm` dialog. -/
def LobbyManager.requestCall (env : Env) (confirmed : Bool) (toUserId toUserName : String)
    (p : Page) : Page × List Effect :=
  if p.lobbyManager.callState ≠ "idle" then
    (p, [Effect.alert "You're already in a call!"])
  else if !confirmed then
    (p, [])
  else
    let activeCall : ActiveCall :=
      { toUserId := some toUserId
        toUserName := some toUserName
        fromUserId := none
        fromUserName := none
        callId := toString env.now ++ "-" ++ substr env.random36 2 9
        roomId := none }
    ({ p with
        lobbyManager :=
          { p.lobbyManager with callState := "requesting", activeCall := some activeCall } },
      [ Effect.emit
          (ClientMsg.requestCall toUserId p.lobbyManager.currentUser.uid
            (jsOr p.lobbyManager.currentUser.displayName p.lobbyManager.currentUser.email)
            activeCall.callId) ])

/-- Method `handleIncomingCall` (lobby.js, lines 266-292), for the payload of
`incoming-call`. -/
def LobbyManager.handleIncomingCall (fromUserId fromUserName callId : String) (p : Page) :
    Page × List Effect :=
  ({ p with
      lobbyManager :=
        { p.lobbyManager with
          callState := "ringing"
          activeCall := some
            { toUserId := none
              toUserName := none
              fromUserId := some fromUserId
              fromUserName := some fromUserName
              callId := callId
              roomId := none } } },
    [Effect.setTimeout 30000])

/-- Method `acceptIncomingCall` (lobby.js, lines 294-314). -/
def LobbyManager.acceptIncomingCall (p : Page) : Page × List Effect :=
  match p.lobbyManager.activeCall with
  | none => (p, [])
  | some activeCall =>
    ({ p with lobbyManager := { p.lobbyManager with callState := "in-call" } },
      [ Effect.emit
          (ClientMsg.acceptCall activeCall.callId activeCall.fromUserId
            p.lobbyManager.currentUser.uid) ])

/-- Method `rejectIncomingCall` (lobby.js, lines 316-328). -/
def LobbyManager.rejectIncomingCall (p : Page) : Page × List Effect :=
  match p.lobbyManager.activeCall with
  | none => (p, [])
  | some activeCall =>
    (LobbyManager.resetCallState p,
      [Effect.emit (ClientMsg.rejectCall activeCall.callId activeCall.fromUserId)])

/-- The callback `handleIncomingCall` hands to `setTimeout` (lobby.js, lines
283-287), run when the 30 seconds are over. -/
def LobbyManager.autoRejectTimeout (p : Page) : Page × List Effect :=
  if p.lobbyManager.callState = "ringing" then
    LobbyManager.rejectIncomingCall p
  else
    (p, [])

/-- Listener of `call-rejected` (lobby.js, lines 125-128). -/
def LobbyManager.onCallRejected (message : String) (p : Page) : Page × List Effect :=
  (LobbyManager.resetCallState p, [Effect.alert ("❌ Call rejected: " ++ message)])

/-- Listener of `call-ended` (lobby.js, lines 130-133). -/
def LobbyManager.onCallEnded (message : String) (p : Page) : Page × List Effect :=
  (LobbyManager.resetCallState p, [Effect.alert ("📞 Call ended: " ++ message)])

mutual

/-- Method `LobbyManager.endCurrentCall` (lobby.js, lines 353-365). The three
methods call each other; `fuel` bounds the depth of the calls and `none` means
it ran out. -/
def LobbyManager.endCurrentCall : Nat → Page → Option (Page × List Effect)
  | 0, _ => none
  | fuel + 1, p =>
    match p.lobbyManager.activeCall with
    | none => some (p, [])
    | some activeCall =>
      match VideoChat.stopMyCamera fuel p with
      | none => none
      | some (p1, out1) =>
        some (LobbyManager.resetCallState p1,
          Effect.emit (ClientMsg.endCall activeCall.callId) :: out1)

/-- Method `VideoChat.stopMyCamera` (app.js, lines 181-216). -/
def VideoChat.stopMyCamera : Nat → Page → Option (Page × List Effect)
  | 0, _ => none
  | fuel + 1, p =>
    if p.videoChat.myStream then
      let p1 : Page := { p with videoChat := { p.videoChat with myStream := false } }
      match p1.videoChat.peerConnection with
      | some _ =>
        match VideoChat.endCurrentCall fuel p1 with
        | none => none
        | some (p2, out2) => some (p2, Effect.stopTracks :: out2)
      | none => some (p1, [Effect.stopTracks])
    else
      some (p, [])

/-- Method `VideoChat.endCurrentCall` (app.js, lines 608-634). -/
def VideoChat.endCurrentCall : Nat → Page → Option (Page × List Effect)
  | 0, _ => none
  | fuel + 1, p =>
    let notified : Option (Page × List Effect) :=
      match p.lobbyManager.activeCall with
      | some _ => LobbyManager.endCurrentCall fuel p
      | none => some (p, [])
    match notified with
    | none => none
    | some (p1, out1) =>
      match p1.videoChat.peerConnection with
      | some pc =>
        some ({ p1 with
                videoChat := { p1.videoChat with peerConnection := none, friendInfo := none } },
          out1 ++ [Effect.closePeer pc])
      | none =>
        some ({ p1 with videoChat := { p1.videoChat with friendInfo := none } }, out1)

end

/-- Property of a page: whenever the lobby is 'ringing' there is an active
call. -/
def RingingHasCall (p : Page) : Prop :=
  p.lobbyManager.callState = "ringing" → p.lobbyManager.activeCall ≠ none

/-! ## The negotiation engine of `VideoChat` (app.js) -/

/-- Method `initiateWebRTCConnection` (app.js, lines 247-427); `newPc` names
the object `new RTCPeerConnection(...)` returns. -/
def VideoChat.initiateWebRTCConnection (newPc : Nat) (toUserId : String) (p : Page) :
    Page × List Effect :=
  let closeOld : List Effect :=
    match p.videoChat.peerConnection with
    | some old => [Effect.closePeer old]
    | none => []
  let p1 : Page := { p with videoChat := { p.videoChat with peerConnection := some newPc } }
  if p1.videoChat.myStream then
    (p1, closeOld ++ [Effect.createPeer newPc, Effect.createOffer newPc toUserId])
  else
    (p1, closeOld ++ [Effect.createPeer newPc])

/-- Method `startCallWithUser` (app.js, lines 219-245). `otherUser` is `none`
for `undefined`, whose `userName` the first line reads; the `error` result
carries the page as it is when the `TypeError` is thrown. -/
def VideoChat.startCallWithUser (newPc : Nat) (otherUser : Option User) (p : Page) :
    Except (String × Page) (Page × List Effect) :=
  match otherUser with
  | none => Except.error ("TypeError: cannot read userName of undefined", p)
  | some user =>
    if !p.videoChat.myStream then
      Except.ok (p, [Effect.alert "⚠️ Please start your camera first!"])
    else
      let p1 : Page :=
        { p with videoChat := { p.videoChat with friendInfo := some (user.userId, user.userName) } }
      Except.ok (VideoChat.initiateWebRTCConnection newPc user.userId p1)

/-- The last step of the promise chain of `initiateWebRTCConnection` (app.js,
lines 402-423), run when the offer `sdp` has become the local description:
the offer is sent through the lobby socket. -/
def VideoChat.offerCreated (toUserId sdp : String) (p : Page) : List Effect :=
  match p.videoChat.peerConnection with
  | some _ =>
    [ Effect.emit
        (ClientMsg.webrtcSignal toUserId (Signal.offer sdp)
          (p.lobbyManager.activeCall.map ActiveCall.callId)) ]
  | none => []

/-- Method `handleIncomingOffer` (app.js, lines 492-587). -/
def VideoChat.handleIncomingOffer (newPc : Nat) (fromUserId sdp : String) (p : Page) :
    Page × List Effect :=
  if !p.videoChat.myStream then
    (p, [])
  else
    let friendInfo : Option (String × String) :=
      match p.videoChat.friendInfo with
      | some info => some info
      | none => some (fromUserId, "Friend")
    ({ p with
        videoChat :=
          { p.videoChat with friendInfo := friendInfo, peerConnection := some newPc } },
      [Effect.createPeer newPc, Effect.applySignal newPc fromUserId (Signal.offer sdp)])

/-- Method `handleWebRTCSignal` (app.js, lines 431-490), for the payload of a
`webrtc-signal` received from the server. -/
def VideoChat.handleWebRTCSignal (newPc : Nat) (fromUserId : String) (signal : Signal)
    (p : Page) : Page × List Effect :=
  match signal, p.videoChat.peerConnection with
  | Signal.offer sdp, none => VideoChat.handleIncomingOffer newPc fromUserId sdp p
  | _, some pc => (p, [Effect.applySignal pc fromUserId signal])
  | _, none => (p, [])

/-- Method `VideoChat.cleanup` (app.js, lines 728-774). -/
def VideoChat.cleanup (p : Page) : Page × List Effect :=
  let stopped : List Effect := if p.videoChat.myStream then [Effect.stopTracks] else []
  let closed : List Effect :=
    match p.videoChat.peerConnection with
    | some pc => [Effect.closePeer pc]
    | none => []
  ({ p with videoChat := { myStream := false, peerConnection := none, friendInfo := none } },
    stopped ++ closed)

/-- The camera stream arrives (`startMyCamera`, app.js, lines 136-161). -/
def VideoChat.cameraStarted (p : Page) : Page :=
  { p with videoChat := { p.videoChat with myStream := true } }

/-- The handler `oniceconnectionstatechange` that `initiateWebRTCConnection`
installs (app.js, lines 298-309), run for peer connection `pc` with its new
`iceConnectionState`. -/
def VideoChat.iceConnectionStateChanged (pc : Nat) (state : String) : List Effect :=
  if state = "connected" ∨ state = "completed" then []
  else if state = "failed" then [Effect.restartIce pc]
  else []

/-- The effects of a sequence of ICE connection-state transitions on peer
connection `pc`. -/
def VideoChat.iceTransitions (pc : Nat) (states : List String) : List Effect :=
  states.flatMap (VideoChat.iceConnectionStateChanged pc)

/-- The call `data.users.find(user => user.userId !== uid)` of
`handleCallStarted`: the first other user, `none` for `undefined`, or the
`TypeError` of reading `userId` of a `null` element. -/
def findOtherUser (uid : String) : List (Option User) → Except String (Option User)
  | [] => Except.ok none
  | none :: _ => Except.error "TypeError: cannot read userId of null"
  | some user :: rest =>
    if user.userId ≠ uid then Except.ok (some user) else findOtherUser uid rest

/-- Method `handleCallStarted` (lobby.js, lines 330-351), for the payload of
`call-started`. The `error` result carries the page as it is when the
`TypeError` is thrown. -/
def LobbyManager.handleCallStarted (newPc : Nat) (roomId : String)
    (users : List (Option User)) (p : Page) : Except (String × Page) (Page × List Effect) :=
  let p1 : Page := { p with lobbyManager := { p.lobbyManager with callState := "in-call" } }
  match p1.lobbyManager.activeCall with
  | none => Except.error ("TypeError: cannot set roomId of null", p1)
  | some activeCall =>
    let p2 : Page :=
      { p1 with
        lobbyManager :=
          { p1.lobbyManager with activeCall := some { activeCall with roomId := some roomId } } }
    match findOtherUser p2.lobbyManager.currentUser.uid users with
    | Except.error e => Except.error (e, p2)
    | Except.ok otherUser => VideoChat.startCallWithUser newPc otherUser p2

/-! ## Runs of the negotiation engine -/

/-- What can happen to the `VideoChat` of a page: the camera stream arrives,
one of its methods is called, or the lobby part of the page changes (the
lobby handlers reach the engine only through these methods). -/
inductive EngineEvent where
  | cameraStarted
  | startCallWithUser (newPc : Nat) (otherUser : Option User)
  | handleWebRTCSignal (newPc : Nat) (fromUserId : String) (signal : Signal)
  | endCurrentCall
  | stopMyCamera
  | cleanup
  | lobby (lobbyManager : LobbyManager)

/-- One event of the engine; `none` only if the mutual calls of
`endCurrentCall` and `stopMyCamera` ran out of fuel. An event whose method
throws leaves the page as it is at the throw. -/
def engineStep (p : Page) : EngineEvent → Option (Page × List Effect)
  | EngineEvent.cameraStarted => some (VideoChat.cameraStarted p, [])
  | EngineEvent.startCallWithUser newPc otherUser =>
    match VideoChat.startCallWithUser newPc otherUser p with
    | Except.ok r => some r
    | Except.error e => some (e.2, [])
  | EngineEvent.handleWebRTCSignal newPc fromUserId signal =>
    some (VideoChat.handleWebRTCSignal newPc fromUserId signal p)
  | EngineEvent.endCurrentCall => VideoChat.endCurrentCall 6 p
  | EngineEvent.stopMyCamera => VideoChat.stopMyCamera 6 p
  | EngineEvent.cleanup => some (VideoChat.cleanup p)
  | EngineEvent.lobby lobbyManager => some ({ p with lobbyManager := lobbyManager }, [])

/-- A sequence of engine events: the final page and all effects in order. -/
def engineRun (p : Page) : List EngineEvent → Option (Page × List Effect)
  | [] => some (p, [])
  | ev :: rest =>
    match engineStep p ev with
    | none => none
    | some (p1, out1) =>
      match engineRun p1 rest with
      | none => none
      | some (p2, out2) => some (p2, out1 ++ out2)

/-- The peer connections that are constructed and not closed after the
effects `effects`, when `unclosed` are the ones of before. -/
def openPeers (unclosed : List Nat) : List Effect → List Nat
  | [] => unclosed
  | Effect.createPeer pc :: rest => openPeers (unclosed ++ [pc]) rest
  | Effect.closePeer pc :: rest => openPeers (unclosed.filter (fun x => decide (x ≠ pc))) rest
  | _ :: rest => openPeers unclosed rest

/-- Whether every construction of a peer connection in `effects` happens when
no constructed peer connection is unclosed. -/
def createsWhenNoneOpen (unclosed : List Nat) : List Effect → Bool
  | [] => true
  | Effect.createPeer pc :: rest =>
    decide (unclosed = []) && createsWhenNoneOpen (unclosed ++ [pc]) rest
  | Effect.closePeer pc :: rest =>
    createsWhenNoneOpen (unclosed.filter (fun x => decide (x ≠ pc))) rest
  | _ :: rest => createsWhenNoneOpen unclosed rest

/-! ## Inputs of the lobby client with the identity of timers -/

/-- An input of the lobby state machine: an `incoming-call`, the local accept
or reject action, or the firing of the 30-second timer that the
`incoming-call` with callId `startedBy` started. -/
inductive LobbyInput where
  | incomingCall (fromUserId fromUserName callId : String)
  | accept
  | reject
  | timerFired (startedBy : String)
deriving DecidableEq

/-- The lobby handles one input. The timer callback holds no reference to the
call that started it. -/
def lobbyStep (p : Page) : LobbyInput → Page × List Effect
  | LobbyInput.incomingCall fromUserId fromUserName callId =>
    LobbyManager.handleIncomingCall fromUserId fromUserName callId p
  | LobbyInput.accept => LobbyManager.acceptIncomingCall p
  | LobbyInput.reject => LobbyManager.rejectIncomingCall p
  | LobbyInput.timerFired _ => LobbyManager.autoRejectTimeout p

/-- The page after a sequence of inputs. -/
def lobbyRun (p : Page) (inputs : List LobbyInput) : Page :=
  inputs.foldl (fun q input => (lobbyStep q input).1) p

/-! ## The sign detector (sign-language-detector.js) -/

/-- JavaScript `s.endsWith(w)`. -/
def jsEndsWith (s w : String) : Bool :=
  w.data.isSuffixOf s.data

/-- Method `addText` (sign-language-detector.js, lines 127-137) as a function
on `currentText`. -/
def SignLanguageDetector.addText (word : String) (currentText : String) : String :=
  if jsEndsWith currentText word then currentText
  else currentText ++ (word ++ " ")

/-! ## The effective join of a connection, read off the events -/

/-- Over the events most recent first: the position of the join of `c` that
counts for its place in the roster: for a connection that joined again
without leaving, its first join; for one that left and joined again, the
later join; `none` when `c` is not in the lobby. -/
def joinedAtRev : List (SocketId × LobbyEvent) → SocketId → Option Nat
  | [], _ => none
  | (c', ev) :: older, c =>
    if c' = c then
      match ev with
      | LobbyEvent.join _ =>
        match joinedAtRev older c with
        | some i => some i
        | none => some older.length
      | _ => none
    else joinedAtRev older c

/-- The position in `evs` of the join of `c` that counts for its place in the
roster. -/
def joinedAt (evs : List (SocketId × LobbyEvent)) (c : SocketId) : Option Nat :=
  joinedAtRev evs.reverse c

/-! ## Facts about `JsMap` -/

theorem getRaw_setRaw_self {κ β : Type} [DecidableEq κ] (k : κ) (v : β) (l : List (κ × β)) :
    getRaw k (setRaw k v l) = some v := by
  induction l with
  | nil => simp [setRaw, getRaw]
  | cons e rest ih =>
    by_cases h : e.1 = k
    · simp [setRaw, getRaw, h]
    · simp [setRaw, getRaw, h, ih]

theorem getRaw_setRaw_ne {κ β : Type} [DecidableEq κ] (k k' : κ) (v : β) (l : List (κ × β))
    (hne : k' ≠ k) : getRaw k' (setRaw k v l) = getRaw k' l := by
  induction l with
  | nil => simp [setRaw, getRaw, hne.symm]
  | cons e rest ih =>
    by_cases h : e.1 = k
    · have h' : ¬ e.1 = k' := fun hk => hne (hk.symm.trans h)
      simp [setRaw, getRaw, h, h', hne.symm]
    · by_cases h2 : e.1 = k'
      · rw [setRaw, if_neg h, getRaw, if_pos h2, getRaw, if_pos h2]
      · rw [setRaw, if_neg h, getRaw, if_neg h2, getRaw, if_neg h2, ih]

theorem setRaw_setRaw {κ β : Type} [DecidableEq κ] (k : κ) (v w : β) (l : List (κ × β)) :
    setRaw k w (setRaw k v l) = setRaw k w l := by
  induction l with
  | nil => simp [setRaw]
  | cons e rest ih =>
    by_cases h : e.1 = k
    · simp [setRaw, h]
    · simp [setRaw, h, ih]

theorem getRaw_eq_none_iff {κ β : Type} [DecidableEq κ] (k : κ) (l : List (κ × β)) :
    getRaw k l = none ↔ k ∉ l.map Prod.fst := by
  induction l with
  | nil => simp [getRaw]
  | cons e rest ih =>
    by_cases h : e.1 = k
    · simp [getRaw, h]
    · have h' : ¬ k = e.1 := fun hk => h hk.symm
      simp [getRaw, h, h', ih]

theorem mem_of_getRaw {κ β : Type} [DecidableEq κ] (k : κ) (v : β) (l : List (κ × β))
    (h : getRaw k l = some v) : (k, v) ∈ l := by
  induction l with
  | nil => simp [getRaw] at h
  | cons e rest ih =>
    by_cases hk : e.1 = k
    · simp only [getRaw, hk, if_true, Option.some.injEq] at h
      have : e = (k, v) := Prod.ext hk h
      simp [this]
    · simp only [getRaw, hk, if_false] at h
      exact List.mem_cons_of_mem _ (ih h)

theorem getRaw_of_mem {κ β : Type} [DecidableEq κ] (k : κ) (v : β) (l : List (κ × β))
    (hnd : (l.map Prod.fst).Nodup) (h : (k, v) ∈ l) : getRaw k l = some v := by
  induction l with
  | nil => simp at h
  | cons e rest ih =>
    rw [List.map_cons, List.nodup_cons] at hnd
    rcases List.mem_cons.mp h with h1 | h1
    · subst h1
      simp [getRaw]
    · have hk : ¬ e.1 = k := by
        intro hk
        apply hnd.1
        rw [hk]
        exact List.mem_map_of_mem Prod.fst h1
      simp only [getRaw, hk, if_false]
      exact ih hnd.2 h1

theorem deleteRaw_of_not_mem {κ β : Type} [DecidableEq κ] (k : κ) (l : List (κ × β))
    (h : k ∉ l.map Prod.fst) : deleteRaw k l = l := by
  induction l with
  | nil => simp [deleteRaw]
  | cons e rest ih =>
    simp only [List.map_cons, List.mem_cons, not_or] at h
    have hk : ¬ e.1 = k := fun hk => h.1 hk.symm
    simp [deleteRaw, hk, ih h.2]

theorem getRaw_deleteRaw_ne {κ β : Type} [DecidableEq κ] (k k' : κ) (l : List (κ × β))
    (hne : k' ≠ k) : getRaw k' (deleteRaw k l) = getRaw k' l := by
  induction l with
  | nil => simp [deleteRaw]
  | cons e rest ih =>
    by_cases h : e.1 = k
    · have h' : ¬ e.1 = k' := fun hk => hne (hk.symm.trans h)
      rw [deleteRaw, if_pos h, getRaw, if_neg h']
    · by_cases h2 : e.1 = k'
      · rw [deleteRaw, if_neg h, getRaw, if_pos h2, getRaw, if_pos h2]
      · rw [deleteRaw, if_neg h, getRaw, if_neg h2, getRaw, if_neg h2, ih]

theorem filter_key_eq_toList {κ β : Type} [DecidableEq κ] (k : κ) (l : List (κ × β))
    (hnd : (l.map Prod.fst).Nodup) :
    (l.filter (fun e => decide (e.1 = k))).map Prod.snd = (getRaw k l).toList := by
  induction l with
  | nil => rfl
  | cons e rest ih =>
    rw [List.map_cons, List.nodup_cons] at hnd
    by_cases h : e.1 = k
    · have hk : k ∉ rest.map Prod.fst := h ▸ hnd.1
      have hrest : getRaw k rest = none := (getRaw_eq_none_iff k rest).mpr hk
      have := ih hnd.2
      rw [hrest] at this
      simp [List.filter_cons, getRaw, h, this]
    · simp [List.filter_cons, getRaw, h, ih hnd.2]

theorem JsMap.ext_entries {κ β : Type} {m₁ m₂ : JsMap κ β}
    (h : m₁.entries = m₂.entries) : m₁ = m₂ := by
  cases m₁; cases m₂; cases h; rfl

namespace JsMap

variable {κ β : Type} [DecidableEq κ]

theorem get_empty (k : κ) : (empty : JsMap κ β).get k = none := rfl

theorem get_set_self (m : JsMap κ β) (k : κ) (v : β) : (m.set k v).get k = some v :=
  getRaw_setRaw_self k v m.entries

theorem get_set_ne (m : JsMap κ β) (k k' : κ) (v : β) (hne : k' ≠ k) :
    (m.set k v).get k' = m.get k' :=
  getRaw_setRaw_ne k k' v m.entries hne

theorem set_set (m : JsMap κ β) (k : κ) (v w : β) : (m.set k v).set k w = m.set k w :=
  ext_entries (setRaw_setRaw k v w m.entries)

theorem get_eq_none_iff (m : JsMap κ β) (k : κ) : m.get k = none ↔ k ∉ m.keys :=
  getRaw_eq_none_iff k m.entries

theorem get_eq_some_iff (m : JsMap κ β) (k : κ) (v : β) :
    m.get k = some v ↔ (k, v) ∈ m.entries :=
  ⟨mem_of_getRaw k v m.entries, getRaw_of_mem k v m.entries m.nodupKeys⟩

theorem get_delete_self (m : JsMap κ β) (k : κ) : (m.delete k).get k = none := by
  rw [get_eq_none_iff]
  show k ∉ (deleteRaw k m.entries).map Prod.fst
  rw [keys_deleteRaw]
  exact fun h => (List.Nodup.mem_erase_iff m.nodupKeys).mp h |>.1 rfl

theorem get_delete_ne (m : JsMap κ β) (k k' : κ) (hne : k' ≠ k) :
    (m.delete k).get k' = m.get k' :=
  getRaw_deleteRaw_ne k k' m.entries hne

theorem delete_of_get_none (m : JsMap κ β) (k : κ) (h : m.get k = none) : m.delete k = m :=
  ext_entries (deleteRaw_of_not_mem k m.entries ((getRaw_eq_none_iff k m.entries).mp h))

theorem mem_keys_iff (m : JsMap κ β) (k : κ) : k ∈ m.keys ↔ ∃ v, m.get k = some v := by
  rw [← not_iff_not, ← get_eq_none_iff]
  cases m.get k <;> simp

theorem keys_set (m : JsMap κ β) (k : κ) (v : β) :
    (m.set k v).keys = if k ∈ m.keys then m.keys else m.keys ++ [k] :=
  keys_setRaw k v m.entries

end JsMap

theorem JsMap.mem_keys_set {κ β : Type} [DecidableEq κ] (m : JsMap κ β) (k k' : κ) (v : β) :
    k' ∈ (m.set k v).keys ↔ k' = k ∨ k' ∈ m.keys := by
  rw [JsMap.keys_set]
  split
  · constructor
    · exact Or.inr
    · rintro (h | h)
      · subst h; assumption
      · exact h
  · simp [or_comm]

theorem JsMap.mem_keys_delete {κ β : Type} [DecidableEq κ] (m : JsMap κ β) (k k' : κ) :
    k' ∈ (m.delete k).keys ↔ k' ≠ k ∧ k' ∈ m.keys := by
  show k' ∈ (deleteRaw k m.entries).map Prod.fst ↔ _
  rw [keys_deleteRaw, List.Nodup.mem_erase_iff m.nodupKeys]
  rfl

/-! ## Facts about the helper functions -/

theorem truthy_some (s : SocketId) : truthy (some s) = true := by
  simp [truthy, s.nonempty]

theorem findSocketByUserId_eq_none (onlineUsers : JsMap SocketId User) (userId : String)
    (h : ∀ user ∈ onlineUsers.values, user.userId ≠ userId) :
    findSocketByUserId onlineUsers userId = none := by
  unfold findSocketByUserId
  rw [Option.map_eq_none', List.find?_eq_none]
  intro e he
  have : e.2 ∈ onlineUsers.values := List.mem_map_of_mem Prod.snd he
  simpa using h e.2 this

theorem findSocketByUserId_some (onlineUsers : JsMap SocketId User) (userId : String)
    (t : SocketId) (h : findSocketByUserId onlineUsers userId = some t) :
    ∃ user, onlineUsers.get t = some user ∧ user.userId = userId := by
  unfold findSocketByUserId at h
  rw [Option.map_eq_some'] at h
  obtain ⟨e, he, rfl⟩ := h
  refine ⟨e.2, ?_, ?_⟩
  · exact (JsMap.get_eq_some_iff onlineUsers e.1 e.2).mpr (List.mem_of_find?_eq_some he)
  · simpa using List.find?_some he

theorem findSocketByUserId_isSome (onlineUsers : JsMap SocketId User) (userId : String)
    (h : ∃ user ∈ onlineUsers.values, user.userId = userId) :
    ∃ t, findSocketByUserId onlineUsers userId = some t := by
  obtain ⟨user, hmem, hid⟩ := h
  obtain ⟨e, he, rfl⟩ := List.mem_map.mp hmem
  cases hf : findSocketByUserId onlineUsers userId with
  | some t => exact ⟨t, rfl⟩
  | none =>
    exfalso
    unfold findSocketByUserId at hf
    rw [Option.map_eq_none', List.find?_eq_none] at hf
    simpa [hid] using hf e he

theorem get_updateUserStatus_self (onlineUsers : JsMap SocketId User) (c : SocketId)
    (s : String) (user : User) (h : onlineUsers.get c = some user) :
    (updateUserStatus onlineUsers c s).get c =
      some ⟨user.socketId, user.userId, user.userName, s, decide (s = "online")⟩ := by
  simp only [updateUserStatus, h]
  exact JsMap.get_set_self _ _ _

theorem get_updateUserStatus_ne (onlineUsers : JsMap SocketId User) (c c' : SocketId)
    (s : String) (hne : c' ≠ c) :
    (updateUserStatus onlineUsers c s).get c' = onlineUsers.get c' := by
  unfold updateUserStatus
  cases h : onlineUsers.get c with
  | none => rfl
  | some user => exact JsMap.get_set_ne _ _ _ _ hne

theorem updateUserStatus_of_get_none (onlineUsers : JsMap SocketId User) (c : SocketId)
    (s : String) (h : onlineUsers.get c = none) :
    updateUserStatus onlineUsers c s = onlineUsers := by
  simp only [updateUserStatus, h]

theorem mem_keys_updateUserStatus (onlineUsers : JsMap SocketId User) (c k : SocketId)
    (s : String) : k ∈ (updateUserStatus onlineUsers c s).keys ↔ k ∈ onlineUsers.keys := by
  unfold updateUserStatus
  cases h : onlineUsers.get c with
  | none => rfl
  | some user =>
    have hc : c ∈ onlineUsers.keys := (JsMap.mem_keys_iff onlineUsers c).mpr ⟨user, h⟩
    simp only [JsMap.mem_keys_set]
    constructor
    · rintro (h1 | h1)
      · subst h1; exact hc
      · exact h1
    · exact Or.inr

theorem keys_leaveRoom (sockets : JsMap SocketId (List String)) (r : String) (s : SocketId) :
    (leaveRoom sockets s r).keys = sockets.keys := by
  unfold leaveRoom
  cases hs : sockets.get s with
  | none => rfl
  | some rooms =>
    have : s ∈ sockets.keys := (JsMap.mem_keys_iff sockets s).mpr ⟨rooms, hs⟩
    simp only [JsMap.keys_set, this, if_true]

theorem mem_roomMembers_iff (sockets : JsMap SocketId (List String)) (r : String)
    (s : SocketId) :
    s ∈ roomMembers sockets r ↔ ∃ rooms, sockets.get s = some rooms ∧ r ∈ rooms := by
  unfold roomMembers
  simp only [List.mem_map, List.mem_filter, decide_eq_true_eq]
  constructor
  · rintro ⟨e, ⟨he, hr⟩, rfl⟩
    exact ⟨e.2, (JsMap.get_eq_some_iff sockets e.1 e.2).mpr he, hr⟩
  · rintro ⟨rooms, hg, hr⟩
    exact ⟨(s, rooms), ⟨(JsMap.get_eq_some_iff sockets s rooms).mp hg, hr⟩, rfl⟩

theorem mem_roomMembers_joinRoom_self (sockets : JsMap SocketId (List String)) (r : String)
    (s : SocketId) (hs : s ∈ sockets.keys) : s ∈ roomMembers (joinRoom sockets s r) r := by
  obtain ⟨rooms, hg⟩ := (JsMap.mem_keys_iff sockets s).mp hs
  rw [mem_roomMembers_iff]
  simp only [joinRoom, hg]
  refine ⟨_, JsMap.get_set_self _ _ _, ?_⟩
  split
  · assumption
  · simp

theorem mem_roomMembers_joinRoom_of_mem (sockets : JsMap SocketId (List String))
    (r r' : String) (s s' : SocketId) (h : s' ∈ roomMembers sockets r) :
    s' ∈ roomMembers (joinRoom sockets s r') r := by
  rw [mem_roomMembers_iff] at h ⊢
  obtain ⟨rooms, hg, hr⟩ := h
  unfold joinRoom
  cases hs : sockets.get s with
  | none => exact ⟨rooms, hg, hr⟩
  | some rooms' =>
    by_cases hss : s' = s
    · subst hss
      rw [hs] at hg
      cases hg
      refine ⟨_, JsMap.get_set_self _ _ _, ?_⟩
      split
      · exact hr
      · exact List.mem_append_left _ hr
    · exact ⟨rooms, by rw [JsMap.get_set_ne _ _ _ _ hss]; exact hg, hr⟩

theorem keys_joinRoom (sockets : JsMap SocketId (List String)) (r : String) (s : SocketId) :
    (joinRoom sockets s r).keys = sockets.keys := by
  unfold joinRoom
  cases hs : sockets.get s with
  | none => rfl
  | some rooms =>
    have : s ∈ sockets.keys := (JsMap.mem_keys_iff sockets s).mpr ⟨rooms, hs⟩
    simp only [JsMap.keys_set, this, if_true]

theorem requestCall_of_found (env : Env) (st : ServerState) (c : SocketId)
    (data : RequestCallData) (target : SocketId)
    (h : findSocketByUserId st.onlineUsers data.toUserId = some target) :
    requestCall env c data st =
      ({ st with onlineUsers := updateUserStatus st.onlineUsers c "busy" },
        [ emitToRoom st target.id
            (Msg.incomingCall data.fromUserId data.fromUserName (generateCallId env)
              env.isoTime),
          emitToSocket c (Msg.callRequestSent data.toUserId "Call request sent!") ]) := by
  simp only [requestCall, h, truthy_some]

theorem acceptCall_of_found (st : ServerState) (c : SocketId) (data : AcceptCallData)
    (caller : SocketId)
    (h : findSocketByUserId st.onlineUsers data.fromUserId = some caller) :
    acceptCall c data st =
      (⟨updateUserStatus (updateUserStatus st.onlineUsers caller "in-call") c "in-call",
        joinRoom (joinRoom st.sockets c ("call-" ++ data.callId)) caller
          ("call-" ++ data.callId)⟩,
        [ emitToRoom
            ⟨updateUserStatus (updateUserStatus st.onlineUsers caller "in-call") c "in-call",
              joinRoom (joinRoom st.sockets c ("call-" ++ data.callId)) caller
                ("call-" ++ data.callId)⟩
            ("call-" ++ data.callId)
            (Msg.callStarted data.callId ("call-" ++ data.callId)
              [ (updateUserStatus (updateUserStatus st.onlineUsers caller "in-call") c
                  "in-call").get caller,
                (updateUserStatus (updateUserStatus st.onlineUsers caller "in-call") c
                  "in-call").get c ]),
          broadcastUserList
            ⟨updateUserStatus (updateUserStatus st.onlineUsers caller "in-call") c "in-call",
              joinRoom (joinRoom st.sockets c ("call-" ++ data.callId)) caller
                ("call-" ++ data.callId)⟩ ]) := by
  simp only [acceptCall, h, truthy_some, Bool.and_self]

theorem get_after_accept (onlineUsers : JsMap SocketId User) (caller c : SocketId)
    (recCaller recCallee : User) (hcaller : onlineUsers.get caller = some recCaller)
    (hcallee : onlineUsers.get c = some recCallee) :
    (updateUserStatus (updateUserStatus onlineUsers caller "in-call") c "in-call").get caller =
        some ⟨recCaller.socketId, recCaller.userId, recCaller.userName, "in-call", false⟩ ∧
    (updateUserStatus (updateUserStatus onlineUsers caller "in-call") c "in-call").get c =
        some ⟨recCallee.socketId, recCallee.userId, recCallee.userName, "in-call", false⟩ := by
  have hd : decide (("in-call" : String) = "online") = false := by decide
  have h1 := get_updateUserStatus_self onlineUsers caller "in-call" recCaller hcaller
  rw [hd] at h1
  by_cases hcc : c = caller
  · subst hcc
    rw [hcaller] at hcallee
    cases hcallee
    have h2 := get_updateUserStatus_self _ c "in-call" _ h1
    rw [hd] at h2
    exact ⟨h2, h2⟩
  · have h2 : (updateUserStatus onlineUsers caller "in-call").get c = some recCallee := by
      rw [get_updateUserStatus_ne _ _ _ _ hcc]; exact hcallee
    have h3 := get_updateUserStatus_self _ c "in-call" _ h2
    rw [hd] at h3
    refine ⟨?_, h3⟩
    rw [get_updateUserStatus_ne _ _ _ _ (fun h => hcc h.symm)]
    exact h1

/-! ## Facts about reachable states -/

theorem handle_keys (env : Env) (c : SocketId) (ev : Event) (st st' : ServerState)
    (out : List Sent) (h : handle env c ev st = Except.ok (st', out)) :
    st'.sockets.keys = st.sockets.keys ∧
    (∀ k, k ∈ st'.onlineUsers.keys → k = c ∨ k ∈ st.onlineUsers.keys) := by
  cases ev with
  | joinLobby userData =>
    simp only [handle, joinLobby, Except.ok.injEq, Prod.mk.injEq] at h
    obtain ⟨rfl, _⟩ := h
    exact ⟨rfl, fun k hk => (JsMap.mem_keys_set _ _ _ _).mp hk⟩
  | requestCall data =>
    simp only [handle, Except.ok.injEq] at h
    cases hf : findSocketByUserId st.onlineUsers data.toUserId with
    | none =>
      simp only [requestCall, hf, Prod.mk.injEq] at h
      obtain ⟨rfl, _⟩ := h
      exact ⟨rfl, fun k hk => Or.inr hk⟩
    | some target =>
      rw [requestCall_of_found env st c data target hf, Prod.mk.injEq] at h
      obtain ⟨rfl, _⟩ := h
      exact ⟨rfl, fun k hk => Or.inr ((mem_keys_updateUserStatus _ _ _ _).mp hk)⟩
  | acceptCall data =>
    simp only [handle, Except.ok.injEq] at h
    cases hf : findSocketByUserId st.onlineUsers data.fromUserId with
    | none =>
      simp only [acceptCall, hf, Prod.mk.injEq] at h
      obtain ⟨rfl, _⟩ := h
      exact ⟨rfl, fun k hk => Or.inr hk⟩
    | some caller =>
      rw [acceptCall_of_found st c data caller hf, Prod.mk.injEq] at h
      obtain ⟨rfl, _⟩ := h
      refine ⟨?_, fun k hk => Or.inr ?_⟩
      · show (joinRoom (joinRoom st.sockets c _) caller _).keys = _
        rw [keys_joinRoom, keys_joinRoom]
      · exact (mem_keys_updateUserStatus _ _ _ _).mp
          ((mem_keys_updateUserStatus _ _ _ _).mp hk)
  | rejectCall data =>
    simp only [handle, Except.ok.injEq] at h
    cases hf : findSocketByUserId st.onlineUsers data.fromUserId with
    | none =>
      simp only [rejectCall, hf, Prod.mk.injEq] at h
      obtain ⟨rfl, _⟩ := h
      exact ⟨rfl, fun k hk => Or.inr hk⟩
    | some caller =>
      simp only [rejectCall, hf, truthy_some, Prod.mk.injEq] at h
      obtain ⟨rfl, _⟩ := h
      exact ⟨rfl, fun k hk => Or.inr ((mem_keys_updateUserStatus _ _ _ _).mp
          ((mem_keys_updateUserStatus _ _ _ _).mp hk))⟩
  | endCall data =>
    simp only [handle, endCall, Except.ok.injEq, Prod.mk.injEq] at h
    obtain ⟨rfl, _⟩ := h
    exact ⟨keys_leaveRoom _ _ _, fun k hk => Or.inr ((mem_keys_updateUserStatus _ _ _ _).mp hk)⟩
  | webrtcSignal data =>
    simp only [handle, webrtcSignal] at h
    split at h
    · split at h
      · simp only [Except.ok.injEq, Prod.mk.injEq] at h
        obtain ⟨rfl, _⟩ := h
        exact ⟨rfl, fun k hk => Or.inr hk⟩
      · cases h
    · simp only [Except.ok.injEq, Prod.mk.injEq] at h
      obtain ⟨rfl, _⟩ := h
      exact ⟨rfl, fun k hk => Or.inr hk⟩
  | leaveLobby =>
    simp only [handle, Except.ok.injEq] at h
    cases hg : st.onlineUsers.get c with
    | none =>
      simp only [leaveLobby, hg, Prod.mk.injEq] at h
      obtain ⟨rfl, _⟩ := h
      exact ⟨rfl, fun k hk => Or.inr hk⟩
    | some user =>
      simp only [leaveLobby, hg, Prod.mk.injEq] at h
      obtain ⟨rfl, _⟩ := h
      exact ⟨rfl, fun k hk => Or.inr ((JsMap.mem_keys_delete _ _ _).mp hk).2⟩

/-- In every reachable state each connection with a record in `onlineUsers` is
a connected socket. -/
theorem registered_is_connected (st : ServerState) (h : Reachable st) :
    ∀ k ∈ st.onlineUsers.keys, k ∈ st.sockets.keys := by
  induction h with
  | init => intro k hk; cases hk
  | connect st c _ _ ih =>
    intro k hk
    exact (JsMap.mem_keys_set _ _ _ _).mpr (Or.inr (ih k hk))
  | handle st st' out env c ev _ hc hstep ih =>
    obtain ⟨h1, h2⟩ := handle_keys env c ev st st' out hstep
    intro k hk
    rw [h1]
    rcases h2 k hk with rfl | hk'
    · exact hc
    · exact ih k hk'
  | disconnect st c _ _ ih =>
    intro k hk
    have hk' : k ≠ c ∧ k ∈ st.onlineUsers.keys := by
      cases hg : st.onlineUsers.get c with
      | none =>
        simp only [disconnect, hg] at hk
        refine ⟨?_, hk⟩
        rintro rfl
        exact (JsMap.get_eq_none_iff _ _).mp hg hk
      | some user =>
        simp only [disconnect, hg] at hk
        exact (JsMap.mem_keys_delete _ _ _).mp hk
    have : (disconnect c st).1.sockets = st.sockets.delete c := by
      cases hg : st.onlineUsers.get c with
      | none => simp only [disconnect, hg]
      | some user => simp only [disconnect, hg]
    rw [this]
    exact (JsMap.mem_keys_delete _ _ _).mpr ⟨hk'.1, ih k hk'.2⟩

/-! ## Facts about runs of lobby events -/

theorem getUsersList_eq_values (onlineUsers : JsMap SocketId User) :
    getUsersList onlineUsers = onlineUsers.values := by
  unfold getUsersList
  exact List.map_id' _

theorem currentJoin_append (evs : List (SocketId × LobbyEvent)) (e : SocketId × LobbyEvent)
    (c : SocketId) :
    currentJoin (evs ++ [e]) c =
      if e.1 = c then
        (match e.2 with
          | LobbyEvent.join userData => some userData
          | _ => none)
      else currentJoin evs c := by
  unfold currentJoin
  rw [List.reverse_append, List.reverse_singleton, List.singleton_append, List.find?_cons]
  by_cases h : e.1 = c
  · obtain ⟨c', ev⟩ := e
    cases ev <;> simp_all
  · simp [h]

theorem get_runLobbyEvents (sockets : JsMap SocketId (List String))
    (evs : List (SocketId × LobbyEvent)) (c : SocketId) :
    (runLobbyEvents ⟨JsMap.empty, sockets⟩ evs).onlineUsers.get c =
      (currentJoin evs c).map (freshRecord c) := by
  induction evs using List.reverseRecOn generalizing c with
  | nil => rfl
  | append_singleton evs e ih =>
    rw [currentJoin_append]
    unfold runLobbyEvents at ih ⊢
    rw [List.foldl_append, List.foldl_cons, List.foldl_nil]
    obtain ⟨c', ev⟩ := e
    by_cases h : c' = c
    · subst h
      cases ev with
      | join userData =>
        simp only [applyLobbyEvent, joinLobby, if_true, Option.map_some', freshRecord]
        exact JsMap.get_set_self _ _ _
      | leave =>
        simp only [applyLobbyEvent, if_true, Option.map_none']
        cases hg : (List.foldl applyLobbyEvent ⟨JsMap.empty, sockets⟩ evs).onlineUsers.get c' with
        | none => simp only [leaveLobby, hg]
        | some user =>
          simp only [leaveLobby, hg]
          exact JsMap.get_delete_self _ _
      | disconnect =>
        simp only [applyLobbyEvent, if_true, Option.map_none']
        cases hg : (List.foldl applyLobbyEvent ⟨JsMap.empty, sockets⟩ evs).onlineUsers.get c' with
        | none => simp only [disconnect, hg]
        | some user =>
          simp only [disconnect, hg]
          exact JsMap.get_delete_self _ _
    · rw [if_neg h, ← ih c]
      have hne : c ≠ c' := fun hc => h hc.symm
      cases ev with
      | join userData =>
        simp only [applyLobbyEvent, joinLobby]
        exact JsMap.get_set_ne _ _ _ _ hne
      | leave =>
        simp only [applyLobbyEvent]
        cases hg : (List.foldl applyLobbyEvent ⟨JsMap.empty, sockets⟩ evs).onlineUsers.get c' with
        | none => simp only [leaveLobby, hg]
        | some user =>
          simp only [leaveLobby, hg]
          exact JsMap.get_delete_ne _ _ _ hne
      | disconnect =>
        simp only [applyLobbyEvent]
        cases hg : (List.foldl applyLobbyEvent ⟨JsMap.empty, sockets⟩ evs).onlineUsers.get c' with
        | none => simp only [disconnect, hg]
        | some user =>
          simp only [disconnect, hg]
          exact JsMap.get_delete_ne _ _ _ hne

/-! ## Facts about rooms, reject and end -/

theorem isCallRoom_call (k : String) : isCallRoom ("call-" ++ k) = true := by
  unfold isCallRoom
  rw [List.isPrefixOf_iff_prefix, String.data_append]
  exact List.prefix_append _ _

theorem get_joinRoom (sockets : JsMap SocketId (List String)) (s s' : SocketId) (r : String)
    (rooms' : List String) (h : (joinRoom sockets s r).get s' = some rooms') :
    ∃ rooms, sockets.get s' = some rooms ∧ ∀ x ∈ rooms, x ∈ rooms' := by
  unfold joinRoom at h
  cases hs : sockets.get s with
  | none =>
    rw [hs] at h
    exact ⟨rooms', h, fun x hx => hx⟩
  | some rooms =>
    rw [hs] at h
    by_cases hss : s' = s
    · subst hss
      rw [JsMap.get_set_self] at h
      cases h
      refine ⟨rooms, hs, fun x hx => ?_⟩
      split
      · exact hx
      · exact List.mem_append_left _ hx
    · rw [JsMap.get_set_ne _ _ _ _ hss] at h
      exact ⟨rooms', h, fun x hx => hx⟩

theorem get_leaveRoom (sockets : JsMap SocketId (List String)) (s s' : SocketId) (r : String)
    (rooms' : List String) (h : (leaveRoom sockets s r).get s' = some rooms') :
    ∃ rooms, sockets.get s' = some rooms ∧ ∀ x ∈ rooms, x ≠ r → x ∈ rooms' := by
  unfold leaveRoom at h
  cases hs : sockets.get s with
  | none =>
    rw [hs] at h
    exact ⟨rooms', h, fun x hx _ => hx⟩
  | some rooms =>
    rw [hs] at h
    by_cases hss : s' = s
    · subst hss
      rw [JsMap.get_set_self] at h
      cases h
      refine ⟨rooms, hs, fun x hx hne => ?_⟩
      simp [List.mem_filter, hx, hne]
    · rw [JsMap.get_set_ne _ _ _ _ hss] at h
      exact ⟨rooms', h, fun x hx _ => hx⟩

theorem mem_roomMembers_leaveRoom (sockets : JsMap SocketId (List String)) (s s' : SocketId)
    (r : String) :
    s' ∈ roomMembers (leaveRoom sockets s r) r ↔ s' ≠ s ∧ s' ∈ roomMembers sockets r := by
  rw [mem_roomMembers_iff, mem_roomMembers_iff]
  unfold leaveRoom
  cases hs : sockets.get s with
  | none =>
    constructor
    · rintro ⟨rooms, hg, hr⟩
      refine ⟨?_, rooms, hg, hr⟩
      rintro rfl
      rw [hs] at hg
      cases hg
    · rintro ⟨_, h⟩
      exact h
  | some rooms =>
    by_cases hss : s' = s
    · subst hss
      simp only [JsMap.get_set_self, Option.some.injEq, ne_eq, not_true_eq_false, false_and,
        iff_false, not_exists, not_and]
      rintro x rfl
      simp
    · simp only [JsMap.get_set_ne _ _ _ _ hss, ne_eq, hss, not_false_eq_true, true_and]

theorem rejectCall_of_found (st : ServerState) (c : SocketId) (data : RejectCallData)
    (caller : SocketId)
    (h : findSocketByUserId st.onlineUsers data.fromUserId = some caller) :
    rejectCall c data st =
      ({ st with
          onlineUsers :=
            updateUserStatus (updateUserStatus st.onlineUsers caller "online") c "online" },
        [ emitToRoom st caller.id (Msg.callRejected data.callId "Call was rejected"),
          broadcastUserList
            { st with
              onlineUsers :=
                updateUserStatus (updateUserStatus st.onlineUsers caller "online") c
                  "online" } ]) := by
  simp only [rejectCall, h, truthy_some]

theorem get_after_two_updates (onlineUsers : JsMap SocketId User) (a b : SocketId)
    (s : String) (recA recB : User) (ha : onlineUsers.get a = some recA)
    (hb : onlineUsers.get b = some recB) :
    (updateUserStatus (updateUserStatus onlineUsers a s) b s).get a =
        some ⟨recA.socketId, recA.userId, recA.userName, s, decide (s = "online")⟩ ∧
    (updateUserStatus (updateUserStatus onlineUsers a s) b s).get b =
        some ⟨recB.socketId, recB.userId, recB.userName, s, decide (s = "online")⟩ := by
  have h1 := get_updateUserStatus_self onlineUsers a s recA ha
  by_cases hab : b = a
  · subst hab
    rw [ha] at hb
    cases hb
    have h2 := get_updateUserStatus_self _ b s _ h1
    exact ⟨h2, h2⟩
  · have h2 : (updateUserStatus onlineUsers a s).get b = some recB := by
      rw [get_updateUserStatus_ne _ _ _ _ hab]; exact hb
    have h3 := get_updateUserStatus_self _ b s _ h2
    refine ⟨?_, h3⟩
    rw [get_updateUserStatus_ne _ _ _ _ (fun h => hab h.symm)]
    exact h1

theorem get_updateUserStatus_some (onlineUsers : JsMap SocketId User) (c k : SocketId)
    (s : String) (u' : User) (h : (updateUserStatus onlineUsers c s).get k = some u') :
    ∃ u, onlineUsers.get k = some u ∧ u'.socketId = u.socketId := by
  by_cases hk : k = c
  · subst hk
    cases hg : onlineUsers.get k with
    | none =>
      rw [updateUserStatus_of_get_none _ _ _ hg, hg] at h
      cases h
    | some user =>
      rw [get_updateUserStatus_self _ _ _ user hg] at h
      cases h
      exact ⟨user, rfl, rfl⟩
  · rw [get_updateUserStatus_ne _ _ _ _ hk] at h
    exact ⟨u', h, rfl⟩

theorem JsMap.get_delete_some {κ β : Type} [DecidableEq κ] (m : JsMap κ β) (k k' : κ) (v : β)
    (h : (m.delete k).get k' = some v) : k' ≠ k ∧ m.get k' = some v := by
  by_cases hk : k' = k
  · subst hk
    rw [JsMap.get_delete_self] at h
    cases h
  · rw [JsMap.get_delete_ne _ _ _ hk] at h
    exact ⟨hk, h⟩

/-! ## More facts about reachable states -/

theorem handle_sockets (env : Env) (c : SocketId) (ev : Event) (st st' : ServerState)
    (out : List Sent) (h : handle env c ev st = Except.ok (st', out)) (s : SocketId)
    (rooms' : List String) (hs : st'.sockets.get s = some rooms') :
    ∃ rooms, st.sockets.get s = some rooms ∧
      ∀ x ∈ rooms, isCallRoom x = false → x ∈ rooms' := by
  have hsame : st'.sockets = st.sockets →
      ∃ rooms, st.sockets.get s = some rooms ∧
        ∀ x ∈ rooms, isCallRoom x = false → x ∈ rooms' := by
    intro heq
    rw [heq] at hs
    exact ⟨rooms', hs, fun x hx _ => hx⟩
  cases ev with
  | joinLobby userData =>
    simp only [handle, joinLobby, Except.ok.injEq, Prod.mk.injEq] at h
    obtain ⟨rfl, _⟩ := h
    exact hsame rfl
  | requestCall data =>
    simp only [handle, Except.ok.injEq] at h
    cases hf : findSocketByUserId st.onlineUsers data.toUserId with
    | none =>
      simp only [requestCall, hf, Prod.mk.injEq] at h
      obtain ⟨rfl, _⟩ := h
      exact hsame rfl
    | some target =>
      rw [requestCall_of_found env st c data target hf, Prod.mk.injEq] at h
      obtain ⟨rfl, _⟩ := h
      exact hsame rfl
  | acceptCall data =>
    simp only [handle, Except.ok.injEq] at h
    cases hf : findSocketByUserId st.onlineUsers data.fromUserId with
    | none =>
      simp only [acceptCall, hf, Prod.mk.injEq] at h
      obtain ⟨rfl, _⟩ := h
      exact hsame rfl
    | some caller =>
      rw [acceptCall_of_found st c data caller hf, Prod.mk.injEq] at h
      obtain ⟨rfl, _⟩ := h
      obtain ⟨rooms1, h1, hsub1⟩ := get_joinRoom _ _ _ _ _ hs
      obtain ⟨rooms0, h0, hsub0⟩ := get_joinRoom _ _ _ _ _ h1
      exact ⟨rooms0, h0, fun x hx _ => hsub1 x (hsub0 x hx)⟩
  | rejectCall data =>
    simp only [handle, Except.ok.injEq] at h
    cases hf : findSocketByUserId st.onlineUsers data.fromUserId with
    | none =>
      simp only [rejectCall, hf, Prod.mk.injEq] at h
      obtain ⟨rfl, _⟩ := h
      exact hsame rfl
    | some caller =>
      rw [rejectCall_of_found st c data caller hf, Prod.mk.injEq] at h
      obtain ⟨rfl, _⟩ := h
      exact hsame rfl
  | endCall data =>
    simp only [handle, endCall, Except.ok.injEq, Prod.mk.injEq] at h
    obtain ⟨rfl, _⟩ := h
    obtain ⟨rooms0, h0, hsub0⟩ := get_leaveRoom _ _ _ _ _ hs
    refine ⟨rooms0, h0, fun x hx hcall => hsub0 x hx ?_⟩
    rintro rfl
    rw [isCallRoom_call] at hcall
    cases hcall
  | webrtcSignal data =>
    simp only [handle, webrtcSignal] at h
    split at h
    · split at h
      · simp only [Except.ok.injEq, Prod.mk.injEq] at h
        obtain ⟨rfl, _⟩ := h
        exact hsame rfl
      · cases h
    · simp only [Except.ok.injEq, Prod.mk.injEq] at h
      obtain ⟨rfl, _⟩ := h
      exact hsame rfl
  | leaveLobby =>
    simp only [handle, Except.ok.injEq] at h
    cases hg : st.onlineUsers.get c with
    | none =>
      simp only [leaveLobby, hg, Prod.mk.injEq] at h
      obtain ⟨rfl, _⟩ := h
      exact hsame rfl
    | some user =>
      simp only [leaveLobby, hg, Prod.mk.injEq] at h
      obtain ⟨rfl, _⟩ := h
      exact hsame rfl

theorem handle_records (env : Env) (c : SocketId) (ev : Event) (st st' : ServerState)
    (out : List Sent) (h : handle env c ev st = Except.ok (st', out)) (k : SocketId)
    (u' : User) (hk : st'.onlineUsers.get k = some u') :
    u'.socketId = k ∨ ∃ u, st.onlineUsers.get k = some u ∧ u'.socketId = u.socketId := by
  have hsame : st'.onlineUsers = st.onlineUsers →
      u'.socketId = k ∨ ∃ u, st.onlineUsers.get k = some u ∧ u'.socketId = u.socketId := by
    intro heq
    rw [heq] at hk
    exact Or.inr ⟨u', hk, rfl⟩
  cases ev with
  | joinLobby userData =>
    simp only [handle, joinLobby, Except.ok.injEq, Prod.mk.injEq] at h
    obtain ⟨rfl, _⟩ := h
    by_cases hkc : k = c
    · subst hkc
      simp only [JsMap.get_set_self, Option.some.injEq] at hk
      subst hk
      exact Or.inl rfl
    · simp only [JsMap.get_set_ne _ _ _ _ hkc] at hk
      exact Or.inr ⟨u', hk, rfl⟩
  | requestCall data =>
    simp only [handle, Except.ok.injEq] at h
    cases hf : findSocketByUserId st.onlineUsers data.toUserId with
    | none =>
      simp only [requestCall, hf, Prod.mk.injEq] at h
      obtain ⟨rfl, _⟩ := h
      exact hsame rfl
    | some target =>
      rw [requestCall_of_found env st c data target hf, Prod.mk.injEq] at h
      obtain ⟨rfl, _⟩ := h
      exact Or.inr (get_updateUserStatus_some _ _ _ _ _ hk)
  | acceptCall data =>
    simp only [handle, Except.ok.injEq] at h
    cases hf : findSocketByUserId st.onlineUsers data.fromUserId with
    | none =>
      simp only [acceptCall, hf, Prod.mk.injEq] at h
      obtain ⟨rfl, _⟩ := h
      exact hsame rfl
    | some caller =>
      rw [acceptCall_of_found st c data caller hf, Prod.mk.injEq] at h
      obtain ⟨rfl, _⟩ := h
      obtain ⟨u1, h1, e1⟩ := get_updateUserStatus_some _ _ _ _ _ hk
      obtain ⟨u0, h0, e0⟩ := get_updateUserStatus_some _ _ _ _ _ h1
      exact Or.inr ⟨u0, h0, e1.trans e0⟩
  | rejectCall data =>
    simp only [handle, Except.ok.injEq] at h
    cases hf : findSocketByUserId st.onlineUsers data.fromUserId with
    | none =>
      simp only [rejectCall, hf, Prod.mk.injEq] at h
      obtain ⟨rfl, _⟩ := h
      exact hsame rfl
    | some caller =>
      rw [rejectCall_of_found st c data caller hf, Prod.mk.injEq] at h
      obtain ⟨rfl, _⟩ := h
      obtain ⟨u1, h1, e1⟩ := get_updateUserStatus_some _ _ _ _ _ hk
      obtain ⟨u0, h0, e0⟩ := get_updateUserStatus_some _ _ _ _ _ h1
      exact Or.inr ⟨u0, h0, e1.trans e0⟩
  | endCall data =>
    simp only [handle, endCall, Except.ok.injEq, Prod.mk.injEq] at h
    obtain ⟨rfl, _⟩ := h
    exact Or.inr (get_updateUserStatus_some _ _ _ _ _ hk)
  | webrtcSignal data =>
    simp only [handle, webrtcSignal] at h
    split at h
    · split at h
      · simp only [Except.ok.injEq, Prod.mk.injEq] at h
        obtain ⟨rfl, _⟩ := h
        exact hsame rfl
      · cases h
    · simp only [Except.ok.injEq, Prod.mk.injEq] at h
      obtain ⟨rfl, _⟩ := h
      exact hsame rfl
  | leaveLobby =>
    simp only [handle, Except.ok.injEq] at h
    cases hg : st.onlineUsers.get c with
    | none =>
      simp only [leaveLobby, hg, Prod.mk.injEq] at h
      obtain ⟨rfl, _⟩ := h
      exact hsame rfl
    | some user =>
      simp only [leaveLobby, hg, Prod.mk.injEq] at h
      obtain ⟨rfl, _⟩ := h
      exact Or.inr ⟨u', (JsMap.get_delete_some _ _ _ _ hk).2, rfl⟩

theorem disconnect_fst (c : SocketId) (st : ServerState) :
    (disconnect c st).1 =
      ⟨(match st.onlineUsers.get c with
          | some _ => st.onlineUsers.delete c
          | none => st.onlineUsers),
        st.sockets.delete c⟩ := by
  cases hg : st.onlineUsers.get c with
  | none => simp only [disconnect, hg]
  | some user => simp only [disconnect, hg]

/-- In every reachable state a record is stored under its own `socketId`. -/
theorem record_under_own_key (st : ServerState) (h : Reachable st) :
    ∀ k u, st.onlineUsers.get k = some u → u.socketId = k := by
  induction h with
  | init => intro k u hk; cases hk
  | connect st c _ _ ih => exact ih
  | handle st st' out env c ev _ _ hstep ih =>
    intro k u' hk
    rcases handle_records env c ev st st' out hstep k u' hk with h1 | ⟨u, hu, he⟩
    · exact h1
    · exact he.trans (ih k u hu)
  | disconnect st c _ _ ih =>
    intro k u hk
    rw [disconnect_fst] at hk
    cases hg : st.onlineUsers.get c with
    | none =>
      simp only [hg] at hk
      exact ih k u hk
    | some user =>
      simp only [hg] at hk
      exact ih k u (JsMap.get_delete_some _ _ _ _ hk).2

/-- In every reachable state a connected socket whose id is not itself a call
room name is in the room named by its id. -/
theorem connected_in_own_room (st : ServerState) (h : Reachable st) :
    ∀ s rooms, st.sockets.get s = some rooms → isCallRoom s.id = false → s.id ∈ rooms := by
  induction h with
  | init => intro s rooms hs; cases hs
  | connect st c _ _ ih =>
    intro s rooms hs hcall
    by_cases hsc : s = c
    · subst hsc
      simp only [connect, JsMap.get_set_self, Option.some.injEq] at hs
      subst hs
      simp
    · simp only [connect, JsMap.get_set_ne _ _ _ _ hsc] at hs
      exact ih s rooms hs hcall
  | handle st st' out env c ev _ _ hstep ih =>
    intro s rooms' hs hcall
    obtain ⟨rooms, h0, hsub⟩ := handle_sockets env c ev st st' out hstep s rooms' hs
    exact hsub s.id (ih s rooms h0 hcall) hcall
  | disconnect st c _ _ ih =>
    intro s rooms hs hcall
    rw [disconnect_fst] at hs
    exact ih s rooms (JsMap.get_delete_some _ _ _ _ hs).2 hcall

/-- In every reachable state, a registered connection whose id is not a call
room name receives what is sent to the room named by its id. -/
theorem registered_in_own_room (st : ServerState) (h : Reachable st) (s : SocketId)
    (hs : s ∈ st.onlineUsers.keys) (hcall : isCallRoom s.id = false) :
    s ∈ roomMembers st.sockets s.id := by
  obtain ⟨rooms, hr⟩ := (JsMap.mem_keys_iff _ _).mp (registered_is_connected st h s hs)
  exact (mem_roomMembers_iff _ _ _).mpr ⟨rooms, hr, connected_in_own_room st h s rooms hr hcall⟩

/-! ## Facts about `end-call`, `webrtc-signal` and `disconnect` -/

theorem updateUserStatus_idem (onlineUsers : JsMap SocketId User) (c : SocketId)
    (s : String) :
    updateUserStatus (updateUserStatus onlineUsers c s) c s = updateUserStatus onlineUsers c s := by
  cases hg : onlineUsers.get c with
  | none => rw [updateUserStatus_of_get_none _ _ _ hg, updateUserStatus_of_get_none _ _ _ hg]
  | some user =>
    have h1 : updateUserStatus onlineUsers c s =
        onlineUsers.set c { user with status := s, isAvailable := decide (s = "online") } := by
      simp only [updateUserStatus, hg]
    rw [h1]
    simp only [updateUserStatus, JsMap.get_set_self, JsMap.set_set]

theorem leaveRoom_idem (sockets : JsMap SocketId (List String)) (s : SocketId) (r : String) :
    leaveRoom (leaveRoom sockets s r) s r = leaveRoom sockets s r := by
  cases hg : sockets.get s with
  | none =>
    have h1 : leaveRoom sockets s r = sockets := by simp only [leaveRoom, hg]
    rw [h1, h1]
  | some rooms =>
    have h1 : leaveRoom sockets s r =
        sockets.set s (rooms.filter (fun x => decide (x ≠ r))) := by
      simp only [leaveRoom, hg]
    rw [h1]
    simp only [leaveRoom, JsMap.get_set_self, JsMap.set_set, List.filter_filter, Bool.and_self]

theorem endCall_fst (c : SocketId) (data : EndCallData) (st : ServerState) :
    (endCall c data st).1 =
      ⟨updateUserStatus st.onlineUsers c "online",
        leaveRoom st.sockets c ("call-" ++ data.callId)⟩ := rfl

theorem endCall_snd (c : SocketId) (data : EndCallData) (st : ServerState) :
    (endCall c data st).2 =
      [ ⟨Target.room ("call-" ++ data.callId), Msg.callEnded data.callId "Call ended",
          roomMembers st.sockets ("call-" ++ data.callId)⟩,
        broadcastUserList (endCall c data st).1 ] := rfl

theorem findSocketByUserId_first (onlineUsers : JsMap SocketId User) (userId : String)
    (t : SocketId) (h : findSocketByUserId onlineUsers userId = some t) :
    ∃ earlier rec later, onlineUsers.entries = earlier ++ (t, rec) :: later ∧
      rec.userId = userId ∧ ∀ e ∈ earlier, e.2.userId ≠ userId := by
  unfold findSocketByUserId at h
  rw [Option.map_eq_some'] at h
  obtain ⟨e, he, rfl⟩ := h
  rw [List.find?_eq_some] at he
  obtain ⟨hp, earlier, later, hl, hbefore⟩ := he
  refine ⟨earlier, e.2, later, hl, by simpa using hp, ?_⟩
  intro x hx
  simpa using hbefore x hx

/-- The only way a handler fails: `webrtc-signal` from a connection without a
record to a userId that is registered. -/
theorem handle_error_iff (env : Env) (c : SocketId) (ev : Event) (st : ServerState) :
    (∃ msg, handle env c ev st = Except.error msg) ↔
      ∃ data, ev = Event.webrtcSignal data ∧ st.onlineUsers.get c = none ∧
        findSocketByUserId st.onlineUsers data.toUserId ≠ none := by
  cases ev with
  | webrtcSignal data =>
    simp only [handle, webrtcSignal, Event.webrtcSignal.injEq, exists_eq_left', ne_eq]
    cases hf : findSocketByUserId st.onlineUsers data.toUserId with
    | none => simp
    | some target =>
      cases hg : st.onlineUsers.get c with
      | none => simp [truthy_some]
      | some sender => simp [truthy_some]
  | joinLobby d => simp [handle]
  | requestCall d => simp [handle]
  | acceptCall d => simp [handle]
  | rejectCall d => simp [handle]
  | endCall d => simp [handle]
  | leaveLobby => simp [handle]

/-! ## Facts about the lobby client -/

theorem ringingHasCall_resetCallState (p : Page) :
    RingingHasCall (LobbyManager.resetCallState p) := by
  intro h
  simp [LobbyManager.resetCallState] at h

/-- The handlers of the lobby keep `RingingHasCall`. -/
theorem ringingHasCall_preserved (p : Page) (hp : RingingHasCall p) :
    (∀ env confirmed toUserId toUserName,
      RingingHasCall (LobbyManager.requestCall env confirmed toUserId toUserName p).1) ∧
    (∀ fromUserId fromUserName callId,
      RingingHasCall (LobbyManager.handleIncomingCall fromUserId fromUserName callId p).1) ∧
    RingingHasCall (LobbyManager.acceptIncomingCall p).1 ∧
    RingingHasCall (LobbyManager.rejectIncomingCall p).1 ∧
    RingingHasCall (LobbyManager.autoRejectTimeout p).1 ∧
    (∀ message, RingingHasCall (LobbyManager.onCallRejected message p).1) ∧
    (∀ message, RingingHasCall (LobbyManager.onCallEnded message p).1) := by
  have hrej : RingingHasCall (LobbyManager.rejectIncomingCall p).1 := by
    unfold LobbyManager.rejectIncomingCall
    cases hac : p.lobbyManager.activeCall with
    | none => exact hp
    | some ac => exact ringingHasCall_resetCallState p
  refine ⟨?_, ?_, ?_, hrej, ?_, ?_, ?_⟩
  · intro env confirmed toUserId toUserName
    unfold LobbyManager.requestCall
    split
    · exact hp
    · split
      · exact hp
      · intro h
        simp at h
  · intro fromUserId fromUserName callId h
    simp [LobbyManager.handleIncomingCall]
  · unfold LobbyManager.acceptIncomingCall
    cases hac : p.lobbyManager.activeCall with
    | none => exact hp
    | some ac =>
      intro h
      simp at h
  · unfold LobbyManager.autoRejectTimeout
    split
    · exact hrej
    · exact hp
  · intro message
    exact ringingHasCall_resetCallState p
  · intro message
    exact ringingHasCall_resetCallState p

/-! ## Facts about the negotiation engine -/

theorem lobby_endCurrentCall_in_call (n : Nat) (p : Page) (activeCall : ActiveCall) (pc : Nat)
    (hac : p.lobbyManager.activeCall = some activeCall)
    (hs : p.videoChat.myStream = true) (hpc : p.videoChat.peerConnection = some pc) :
    LobbyManager.endCurrentCall (n + 5) p =
      some
        (⟨{ currentUser := p.lobbyManager.currentUser, callState := "idle", activeCall := none },
            { myStream := false, peerConnection := none, friendInfo := none }⟩,
          [ Effect.emit (ClientMsg.endCall activeCall.callId), Effect.stopTracks,
            Effect.emit (ClientMsg.endCall activeCall.callId), Effect.closePeer pc ]) := by
  obtain ⟨⟨cu, cs, ac⟩, ⟨ms, pcs, fi⟩⟩ := p
  simp only at hac hs hpc
  subst hac hs hpc
  simp [LobbyManager.endCurrentCall, VideoChat.stopMyCamera, VideoChat.endCurrentCall,
    LobbyManager.resetCallState]

theorem openPeers_append (unclosed : List Nat) (out1 out2 : List Effect) :
    openPeers unclosed (out1 ++ out2) = openPeers (openPeers unclosed out1) out2 := by
  induction out1 generalizing unclosed with
  | nil => rfl
  | cons e rest ih =>
    cases e <;> simp [openPeers, ih]

theorem createsWhenNoneOpen_append (unclosed : List Nat) (out1 out2 : List Effect) :
    createsWhenNoneOpen unclosed (out1 ++ out2) =
      (createsWhenNoneOpen unclosed out1 &&
        createsWhenNoneOpen (openPeers unclosed out1) out2) := by
  induction out1 generalizing unclosed with
  | nil => simp [createsWhenNoneOpen, openPeers]
  | cons e rest ih =>
    cases e <;> simp [createsWhenNoneOpen, openPeers, ih, Bool.and_assoc]

theorem engineStep_evaluated (p : Page) (ev : EngineEvent) :
    match engineStep p ev with
    | none => False
    | some (p', out) =>
      openPeers p.videoChat.peerConnection.toList out = p'.videoChat.peerConnection.toList ∧
      createsWhenNoneOpen p.videoChat.peerConnection.toList out = true := by
  obtain ⟨⟨cu, cs, ac⟩, ⟨ms, pcs, fi⟩⟩ := p
  cases ev with
  | cameraStarted => exact ⟨rfl, rfl⟩
  | startCallWithUser newPc otherUser =>
    cases otherUser with
    | none => exact ⟨rfl, rfl⟩
    | some user =>
      cases ms <;> cases pcs <;>
        simp [engineStep, VideoChat.startCallWithUser, VideoChat.initiateWebRTCConnection,
          openPeers, createsWhenNoneOpen]
  | handleWebRTCSignal newPc fromUserId signal =>
    cases signal <;> cases ms <;> cases pcs <;>
      simp [engineStep, VideoChat.handleWebRTCSignal, VideoChat.handleIncomingOffer,
        openPeers, createsWhenNoneOpen]
  | endCurrentCall =>
    cases ac <;> cases ms <;> cases pcs <;>
      simp [engineStep, LobbyManager.endCurrentCall, VideoChat.stopMyCamera,
        VideoChat.endCurrentCall, LobbyManager.resetCallState, openPeers, createsWhenNoneOpen]
  | stopMyCamera =>
    cases ac <;> cases ms <;> cases pcs <;>
      simp [engineStep, LobbyManager.endCurrentCall, VideoChat.stopMyCamera,
        VideoChat.endCurrentCall, LobbyManager.resetCallState, openPeers, createsWhenNoneOpen]
  | cleanup =>
    cases ms <;> cases pcs <;>
      simp [engineStep, VideoChat.cleanup, openPeers, createsWhenNoneOpen]
  | lobby lobbyManager => exact ⟨rfl, rfl⟩

/-- One event of the engine returns, keeps the unclosed peer connections equal
to the one the page holds, and constructs only when none is unclosed. -/
theorem engineStep_keeps_one_peer (p : Page) (ev : EngineEvent) :
    ∃ p' out, engineStep p ev = some (p', out) ∧
      openPeers p.videoChat.peerConnection.toList out = p'.videoChat.peerConnection.toList ∧
      createsWhenNoneOpen p.videoChat.peerConnection.toList out = true := by
  have h := engineStep_evaluated p ev
  cases hs : engineStep p ev with
  | none => rw [hs] at h; exact h.elim
  | some r =>
    rw [hs] at h
    exact ⟨r.1, r.2, rfl, h⟩

/-- A run of engine events returns, and does so with the unclosed peer
connections equal to the one the page holds and with every construction made
when none is unclosed. -/
theorem engineRun_keeps_one_peer (evs : List EngineEvent) (p : Page) :
    ∃ p' out, engineRun p evs = some (p', out) ∧
      openPeers p.videoChat.peerConnection.toList out = p'.videoChat.peerConnection.toList ∧
      createsWhenNoneOpen p.videoChat.peerConnection.toList out = true := by
  induction evs generalizing p with
  | nil => exact ⟨p, [], rfl, rfl, rfl⟩
  | cons ev rest ih =>
    obtain ⟨p1, out1, h1, ho1, hc1⟩ := engineStep_keeps_one_peer p ev
    obtain ⟨p2, out2, h2, ho2, hc2⟩ := ih p1
    refine ⟨p2, out1 ++ out2, ?_, ?_, ?_⟩
    · simp only [engineRun, h1, h2]
    · rw [openPeers_append, ho1, ho2]
    · rw [createsWhenNoneOpen_append, hc1, ho1, hc2]
      rfl

/-! ## Facts about the order of the roster -/

theorem joinedAt_append (evs : List (SocketId × LobbyEvent)) (e : SocketId × LobbyEvent)
    (c : SocketId) :
    joinedAt (evs ++ [e]) c =
      if e.1 = c then
        (match e.2 with
          | LobbyEvent.join _ =>
            (match joinedAt evs c with
              | some i => some i
              | none => some evs.length)
          | _ => none)
      else joinedAt evs c := by
  obtain ⟨c', ev⟩ := e
  unfold joinedAt
  rw [List.reverse_append, List.reverse_singleton, List.singleton_append]
  by_cases h : c' = c
  · cases ev <;> simp [joinedAtRev, h]
  · simp [joinedAtRev, h]

theorem keys_applyLobbyEvent (st : ServerState) (c : SocketId) (ev : LobbyEvent) :
    (applyLobbyEvent st (c, ev)).onlineUsers.keys =
      match ev with
      | LobbyEvent.join _ =>
        if c ∈ st.onlineUsers.keys then st.onlineUsers.keys else st.onlineUsers.keys ++ [c]
      | _ => st.onlineUsers.keys.erase c := by
  have hdel : ∀ m : JsMap SocketId User, (m.delete c).keys = m.keys.erase c :=
    fun m => keys_deleteRaw c m.entries
  cases ev with
  | join userData =>
    simp only [applyLobbyEvent, joinLobby]
    exact JsMap.keys_set _ _ _
  | leave =>
    simp only [applyLobbyEvent]
    cases hg : st.onlineUsers.get c with
    | none =>
      simp only [leaveLobby, hg]
      exact (List.erase_of_not_mem ((JsMap.get_eq_none_iff _ _).mp hg)).symm
    | some user =>
      simp only [leaveLobby, hg]
      exact hdel _
  | disconnect =>
    simp only [applyLobbyEvent]
    cases hg : st.onlineUsers.get c with
    | none =>
      simp only [disconnect, hg]
      exact (List.erase_of_not_mem ((JsMap.get_eq_none_iff _ _).mp hg)).symm
    | some user =>
      simp only [disconnect, hg]
      exact hdel _

/-- After a run of lobby events from an empty registry the keys of the
registry are the connections with an effective join, in the order of those
joins. -/
theorem keys_in_join_order (sockets : JsMap SocketId (List String))
    (evs : List (SocketId × LobbyEvent)) :
    (∀ c, c ∈ (runLobbyEvents ⟨JsMap.empty, sockets⟩ evs).onlineUsers.keys ↔
      ∃ i, joinedAt evs c = some i) ∧
    (∀ c i, joinedAt evs c = some i → i < evs.length) ∧
    (runLobbyEvents ⟨JsMap.empty, sockets⟩ evs).onlineUsers.keys.Pairwise
      (fun a b => ∃ i j, joinedAt evs a = some i ∧ joinedAt evs b = some j ∧ i < j) := by
  induction evs using List.reverseRecOn with
  | nil =>
    refine ⟨?_, ?_, ?_⟩
    · intro c
      simp [runLobbyEvents, JsMap.keys, JsMap.empty, joinedAt, joinedAtRev]
    · intro c i h
      simp [joinedAt, joinedAtRev] at h
    · simp [runLobbyEvents, JsMap.keys, JsMap.empty]
  | append_singleton evs e ih =>
    obtain ⟨ihA, ihB, ihC⟩ := ih
    obtain ⟨c, ev⟩ := e
    have hrun : runLobbyEvents ⟨JsMap.empty, sockets⟩ (evs ++ [(c, ev)]) =
        applyLobbyEvent (runLobbyEvents ⟨JsMap.empty, sockets⟩ evs) (c, ev) := by
      simp [runLobbyEvents, List.foldl_append]
    rw [hrun, keys_applyLobbyEvent]
    generalize hm : (runLobbyEvents ⟨JsMap.empty, sockets⟩ evs).onlineUsers = m at ihA ihC
    have hJne : ∀ a, a ≠ c → joinedAt (evs ++ [(c, ev)]) a = joinedAt evs a := by
      intro a ha
      rw [joinedAt_append, if_neg (fun h => ha h.symm)]
    have hlen : (evs ++ [(c, ev)]).length = evs.length + 1 := by simp
    have hnd : m.keys.Nodup := m.nodupKeys
    cases ev with
    | join userData =>
      have hJc : joinedAt (evs ++ [(c, LobbyEvent.join userData)]) c =
          match joinedAt evs c with
          | some i => some i
          | none => some evs.length := by
        rw [joinedAt_append, if_pos rfl]
      by_cases hmem : c ∈ m.keys
      · obtain ⟨i0, hi0⟩ := (ihA c).mp hmem
        have hJ : ∀ a, joinedAt (evs ++ [(c, LobbyEvent.join userData)]) a = joinedAt evs a := by
          intro a
          by_cases ha : a = c
          · subst ha
            rw [hJc, hi0]
          · exact hJne a ha
        simp only [hmem, if_true]
        refine ⟨?_, ?_, ?_⟩
        · intro a
          rw [hJ a]
          exact ihA a
        · intro a i h
          rw [hJ a] at h
          rw [hlen]
          exact Nat.lt_succ_of_lt (ihB a i h)
        · refine List.Pairwise.imp ?_ ihC
          intro a b hab
          rw [hJ a, hJ b]
          exact hab
      · have hnone : joinedAt evs c = none := by
          cases hj : joinedAt evs c with
          | none => rfl
          | some i => exact absurd ((ihA c).mpr ⟨i, hj⟩) hmem
        rw [hnone] at hJc
        simp only [hmem, if_false]
        refine ⟨?_, ?_, ?_⟩
        · intro a
          by_cases ha : a = c
          · subst ha
            simp [hJc]
          · rw [hJne a ha, ← ihA a]
            simp [ha]
        · intro a i h
          rw [hlen]
          by_cases ha : a = c
          · subst ha
            rw [hJc] at h
            cases h
            exact Nat.lt_succ_self _
          · rw [hJne a ha] at h
            exact Nat.lt_succ_of_lt (ihB a i h)
        · rw [List.pairwise_append]
          refine ⟨?_, List.pairwise_singleton _ _, ?_⟩
          · refine List.Pairwise.imp_of_mem ?_ ihC
            intro a b ha hb hab
            have hac : a ≠ c := fun h => hmem (h ▸ ha)
            have hbc : b ≠ c := fun h => hmem (h ▸ hb)
            rw [hJne a hac, hJne b hbc]
            exact hab
          · intro a ha b hb
            rw [List.mem_singleton] at hb
            subst hb
            have hac : a ≠ b := fun h => hmem (h ▸ ha)
            obtain ⟨i, hi⟩ := (ihA a).mp ha
            exact ⟨i, evs.length, by rw [hJne a hac]; exact hi, hJc, ihB a i hi⟩
    | leave =>
      have hJc : joinedAt (evs ++ [(c, LobbyEvent.leave)]) c = none := by
        rw [joinedAt_append, if_pos rfl]
      refine ⟨?_, ?_, ?_⟩
      · intro a
        show a ∈ m.keys.erase c ↔ _
        rw [List.Nodup.mem_erase_iff hnd]
        by_cases ha : a = c
        · subst ha
          simp [hJc]
        · rw [hJne a ha, ← ihA a]
          simp [ha]
      · intro a i h
        rw [hlen]
        by_cases ha : a = c
        · subst ha
          rw [hJc] at h
          cases h
        · rw [hJne a ha] at h
          exact Nat.lt_succ_of_lt (ihB a i h)
      · show (m.keys.erase c).Pairwise _
        refine List.Pairwise.imp_of_mem ?_ (List.Pairwise.sublist (List.erase_sublist c m.keys) ihC)
        intro a b ha hb hab
        have hac : a ≠ c := ((List.Nodup.mem_erase_iff hnd).mp ha).1
        have hbc : b ≠ c := ((List.Nodup.mem_erase_iff hnd).mp hb).1
        rw [hJne a hac, hJne b hbc]
        exact hab
    | disconnect =>
      have hJc : joinedAt (evs ++ [(c, LobbyEvent.disconnect)]) c = none := by
        rw [joinedAt_append, if_pos rfl]
      refine ⟨?_, ?_, ?_⟩
      · intro a
        show a ∈ m.keys.erase c ↔ _
        rw [List.Nodup.mem_erase_iff hnd]
        by_cases ha : a = c
        · subst ha
          simp [hJc]
        · rw [hJne a ha, ← ihA a]
          simp [ha]
      · intro a i h
        rw [hlen]
        by_cases ha : a = c
        · subst ha
          rw [hJc] at h
          cases h
        · rw [hJne a ha] at h
          exact Nat.lt_succ_of_lt (ihB a i h)
      · show (m.keys.erase c).Pairwise _
        refine List.Pairwise.imp_of_mem ?_ (List.Pairwise.sublist (List.erase_sublist c m.keys) ihC)
        intro a b ha hb hab
        have hac : a ≠ c := ((List.Nodup.mem_erase_iff hnd).mp ha).1
        have hbc : b ≠ c := ((List.Nodup.mem_erase_iff hnd).mp hb).1
        rw [hJne a hac, hJne b hbc]
        exact hab

theorem roster_socketIds_of_run (sockets : JsMap SocketId (List String))
    (evs : List (SocketId × LobbyEvent)) :
    (getUsersList (runLobbyEvents ⟨JsMap.empty, sockets⟩ evs).onlineUsers).map User.socketId =
      (runLobbyEvents ⟨JsMap.empty, sockets⟩ evs).onlineUsers.keys := by
  have hget := get_runLobbyEvents sockets evs
  generalize (runLobbyEvents ⟨JsMap.empty, sockets⟩ evs).onlineUsers = m at hget
  rw [getUsersList_eq_values]
  unfold JsMap.values JsMap.keys
  rw [List.map_map]
  apply List.map_congr_left
  intro e he
  have h1 : m.get e.1 = some e.2 := (JsMap.get_eq_some_iff m e.1 e.2).mpr he
  rw [hget] at h1
  cases hj : currentJoin evs e.1 with
  | none => rw [hj] at h1; cases h1
  | some userData =>
    rw [hj] at h1
    simp only [Option.map_some', Option.some.injEq] at h1
    rw [Function.comp_apply, ← h1]
    rfl

theorem map_setRaw_same {κ β γ : Type} [DecidableEq κ] (f : β → γ) (k : κ) (u v : β)
    (l : List (κ × β)) (hg : getRaw k l = some u) (hf : f v = f u) :
    (setRaw k v l).map (fun e => (e.1, f e.2)) = l.map (fun e => (e.1, f e.2)) := by
  induction l with
  | nil => simp [getRaw] at hg
  | cons e rest ih =>
    by_cases h : e.1 = k
    · simp only [getRaw, h, if_true, Option.some.injEq] at hg
      simp [setRaw, h, hf, hg]
    · simp only [getRaw, h, if_false] at hg
      simp [setRaw, h, ih hg]

theorem roster_order_updateUserStatus (onlineUsers : JsMap SocketId User) (c : SocketId)
    (s : String) :
    (updateUserStatus onlineUsers c s).entries.map
        (fun e => (e.1, (e.2.socketId, e.2.userId, e.2.userName))) =
      onlineUsers.entries.map (fun e => (e.1, (e.2.socketId, e.2.userId, e.2.userName))) := by
  unfold updateUserStatus
  cases hg : onlineUsers.get c with
  | none => rfl
  | some user =>
    exact map_setRaw_same (fun u : User => (u.socketId, u.userId, u.userName)) c user _
      onlineUsers.entries hg rfl

/-! ## Concrete states used to evaluate the handlers -/

/-- Connection of the first example user. -/
def sockA : SocketId := ⟨"sA", by decide⟩

/-- Connection of the second example user. -/
def sockB : SocketId := ⟨"sB", by decide⟩

/-- A connected socket that has not joined the lobby. -/
def sockC : SocketId := ⟨"sC", by decide⟩

/-- Record of Alice (uid 1) right after `join-lobby`. -/
def alice : User := ⟨sockA, "1", "Alice", "online", true⟩

/-- Record of Bob (uid 2) right after `join-lobby`. -/
def bob : User := ⟨sockB, "2", "Bob", "online", true⟩

/-- Three connected sockets; Alice and Bob have joined the lobby, in that
order. -/
def lobbyAB : ServerState :=
  { onlineUsers := ⟨[(sockA, alice), (sockB, bob)], by decide⟩
    sockets := ⟨[(sockA, ["sA"]), (sockB, ["sB"]), (sockC, ["sC"])], by decide⟩ }

/-- A reading of the clock and the random generator. -/
def env0 : Env := ⟨1700000000000, "0.4fzyo82mvyr", "2023-11-14T22:13:20.000Z"⟩

/-- Alice and Bob join, Alice joins again under another identity, Carol joins,
Bob leaves, Carol disconnects. -/
def lobbyTrace : List (SocketId × LobbyEvent) :=
  [ (sockA, LobbyEvent.join ⟨"1", "Alice"⟩),
    (sockB, LobbyEvent.join ⟨"2", "Bob"⟩),
    (sockA, LobbyEvent.join ⟨"7", "Alicia"⟩),
    (sockC, LobbyEvent.join ⟨"3", "Carol"⟩),
    (sockB, LobbyEvent.leave),
    (sockC, LobbyEvent.disconnect) ]

/-- The lobby of Alice and Bob after Bob has accepted Alice's call "c1". -/
def callAB : ServerState := (acceptCall sockB ⟨"c1", "1", "2"⟩ lobbyAB).1

/-- Alice as the identity provider describes her. -/
def aliceUser : CurrentUser := ⟨"1", some "Alice", some "alice@example.org"⟩

/-- Bob as the identity provider describes him. -/
def bobUser : CurrentUser := ⟨"2", some "Bob", some "bob@example.org"⟩

/-- Alice's tab after login: idle, camera off, no peer connection. -/
def aliceIdle : Page :=
  { lobbyManager := { currentUser := aliceUser, callState := "idle", activeCall := none }
    videoChat := { myStream := false, peerConnection := none, friendInfo := none } }

/-- Bob's tab while the incoming call "c1" of Alice rings. -/
def bobRinging : Page :=
  { lobbyManager :=
      { currentUser := bobUser
        callState := "ringing"
        activeCall := some ⟨none, none, some "1", some "Alice", "c1", none⟩ }
    videoChat := { myStream := true, peerConnection := none, friendInfo := none } }

/-- Bob's tab during call "c1" with Alice: camera on, peer connection 1 open. -/
def bobInCall : Page :=
  { lobbyManager :=
      { currentUser := bobUser
        callState := "in-call"
        activeCall := some ⟨none, none, some "1", some "Alice", "c1", some "call-c1"⟩ }
    videoChat :=
      { myStream := true, peerConnection := some 1, friendInfo := some ("1", "Alice") } }

/-- A second reading of the clock and the random generator, the server's. -/
def env1 : Env := ⟨1700000000123, "0.k3j9x0q1zab", "2023-11-14T22:13:20.123Z"⟩

/-- Alice's tab, idle, with the camera on. -/
def aliceCamera : Page :=
  { lobbyManager := { currentUser := aliceUser, callState := "idle", activeCall := none }
    videoChat := { myStream := true, peerConnection := none, friendInfo := none } }

/-- Bob's tab, idle, with the camera on. -/
def bobCamera : Page :=
  { lobbyManager := { currentUser := bobUser, callState := "idle", activeCall := none }
    videoChat := { myStream := true, peerConnection := none, friendInfo := none } }

/-- Bob's tab right after he accepted the incoming call "c1" of Alice: camera
on, no peer connection yet. -/
def bobAccepted : Page :=
  { lobbyManager :=
      { currentUser := bobUser
        callState := "in-call"
        activeCall := some ⟨none, none, some "1", some "Alice", "c1", none⟩ }
    videoChat := { myStream := true, peerConnection := none, friendInfo := none } }

/-- The `users` array of the `call-started` for the call of Alice and Bob. -/
def usersAB : List (Option User) :=
  [some ⟨sockA, "1", "Alice", "in-call", false⟩, some ⟨sockB, "2", "Bob", "in-call", false⟩]

/-- Alice, Bob and Carol join; Alice joins again without leaving; Bob leaves
and joins again. -/
def orderTrace : List (SocketId × LobbyEvent) :=
  [ (sockA, LobbyEvent.join ⟨"1", "Alice"⟩),
    (sockB, LobbyEvent.join ⟨"2", "Bob"⟩),
    (sockC, LobbyEvent.join ⟨"3", "Carol"⟩),
    (sockA, LobbyEvent.join ⟨"1", "Alice"⟩),
    (sockB, LobbyEvent.leave),
    (sockB, LobbyEvent.join ⟨"2", "Bob"⟩) ]

/-- A run of the engine in Alice's tab: two calls started one after the
other, the second one ended, an offer received, logout. -/
def engineTrace : List EngineEvent :=
  [ EngineEvent.startCallWithUser 1 (some bob),
    EngineEvent.startCallWithUser 2 (some bob),
    EngineEvent.endCurrentCall,
    EngineEvent.handleWebRTCSignal 3 "2" (Signal.offer "sdp"),
    EngineEvent.handleWebRTCSignal 4 "2" (Signal.candidate "cand"),
    EngineEvent.cleanup ]

/-- The server after it handled Alice's `request-call` for Bob, reading
`env1`. -/
def requestedAB : ServerState :=
  (requestCall env1 sockA ⟨"2", "1", "Alice", "1700000000000-4fzyo82mv"⟩ lobbyAB).1

/-- The server after Bob accepted with the callId he was given. -/
def acceptedAB : ServerState :=
  (acceptCall sockB ⟨"1700000000123-k3j9x0q1z", "1", "2"⟩ requestedAB).1

/-! ## Session registry: join, leave, setStatus -/

/-- C1: after any sequence of join-lobby, leave-lobby and disconnect events
applied to an empty registry, no two roster entries have the same socketId;
for a connection whose most recent event is a join the roster entries with its
socketId are exactly one, the record of that join (so with its userId); for
every other connection the roster has no entry. -/
theorem roster_after_lobby_events (sockets : JsMap SocketId (List String))
    (evs : List (SocketId × LobbyEvent)) :
    ((getUsersList (runLobbyEvents ⟨JsMap.empty, sockets⟩ evs).onlineUsers).map
        User.socketId).Nodup ∧
    (∀ c userData, currentJoin evs c = some userData →
      (getUsersList (runLobbyEvents ⟨JsMap.empty, sockets⟩ evs).onlineUsers).filter
          (fun e => decide (e.socketId = c)) =
        [⟨c, userData.userId, userData.userName, "online", true⟩]) ∧
    (∀ c, currentJoin evs c = none →
      (getUsersList (runLobbyEvents ⟨JsMap.empty, sockets⟩ evs).onlineUsers).filter
          (fun e => decide (e.socketId = c)) = []) := by
  have hget := get_runLobbyEvents sockets evs
  generalize (runLobbyEvents ⟨JsMap.empty, sockets⟩ evs).onlineUsers = m at hget
  have hkey : ∀ e ∈ m.entries, e.2.socketId = e.1 := by
    intro e he
    have h1 : m.get e.1 = some e.2 := (JsMap.get_eq_some_iff m e.1 e.2).mpr he
    rw [hget] at h1
    cases hj : currentJoin evs e.1 with
    | none => rw [hj] at h1; cases h1
    | some userData =>
      rw [hj] at h1
      simp only [Option.map_some', Option.some.injEq] at h1
      rw [← h1]
      rfl
  have hfilter : ∀ c, (getUsersList m).filter (fun e => decide (e.socketId = c)) =
      ((currentJoin evs c).map (freshRecord c)).toList := by
    intro c
    rw [getUsersList_eq_values, ← hget c]
    unfold JsMap.values JsMap.get
    rw [← filter_key_eq_toList c m.entries m.nodupKeys, List.filter_map]
    congr 1
    apply List.filter_congr
    intro e he
    simp [hkey e he]
  refine ⟨?_, ?_, ?_⟩
  · rw [getUsersList_eq_values]
    unfold JsMap.values
    rw [List.map_map]
    have : m.entries.map (User.socketId ∘ Prod.snd) = m.entries.map Prod.fst :=
      List.map_congr_left (fun e he => hkey e he)
    rw [this]
    exact m.nodupKeys
  · intro c userData hj
    rw [hfilter c, hj]
    rfl
  · intro c hj
    rw [hfilter c, hj]
    rfl

/-- Witness for C1: after the trace `lobbyTrace` the roster holds one entry for
Alice's connection, with the userId of her second join, and none for Bob's. -/
theorem roster_after_lobby_events_witness :
    currentJoin lobbyTrace sockA = some ⟨"7", "Alicia"⟩ ∧
    (getUsersList (runLobbyEvents ⟨JsMap.empty, lobbyAB.sockets⟩ lobbyTrace).onlineUsers).filter
        (fun e => decide (e.socketId = sockA)) =
      [⟨sockA, "7", "Alicia", "online", true⟩] ∧
    currentJoin lobbyTrace sockB = none ∧
    (getUsersList (runLobbyEvents ⟨JsMap.empty, lobbyAB.sockets⟩ lobbyTrace).onlineUsers).filter
        (fun e => decide (e.socketId = sockB)) = [] :=
  ⟨by decide,
   (roster_after_lobby_events lobbyAB.sockets lobbyTrace).2.1 sockA ⟨"7", "Alicia"⟩ (by decide),
   by decide,
   (roster_after_lobby_events lobbyAB.sockets lobbyTrace).2.2 sockB (by decide)⟩

/-- C2: after `join-lobby` from connection `c` with `(u, n)` the registry maps
`c` to the fresh record with status 'online' and `isAvailable = true`, whatever
`c` had before; every other connection's record is unchanged; joining a second
time with the same arguments gives the same registry. -/
theorem joinLobby_sets_record (st : ServerState) (c : SocketId) (u n : String) :
    (joinLobby c ⟨u, n⟩ st).1.onlineUsers.get c = some ⟨c, u, n, "online", true⟩ ∧
    (∀ c', c' ≠ c →
      (joinLobby c ⟨u, n⟩ st).1.onlineUsers.get c' = st.onlineUsers.get c') ∧
    (joinLobby c ⟨u, n⟩ (joinLobby c ⟨u, n⟩ st).1).1.onlineUsers =
      (joinLobby c ⟨u, n⟩ st).1.onlineUsers := by
  refine ⟨?_, ?_, ?_⟩
  · exact JsMap.get_set_self _ _ _
  · intro c' hne
    exact JsMap.get_set_ne _ _ _ _ hne
  · exact JsMap.set_set _ _ _ _

/-- C3: `leave-lobby` is idempotent: handling it twice for `c` gives the same
state (registry included) as handling it once, the second time emits nothing,
and for a connection without a record it returns the state unchanged. -/
theorem leaveLobby_idempotent (st : ServerState) (c : SocketId) :
    (leaveLobby c (leaveLobby c st).1).1 = (leaveLobby c st).1 ∧
    (leaveLobby c (leaveLobby c st).1).2 = [] ∧
    (st.onlineUsers.get c = none → leaveLobby c st = (st, [])) := by
  have hnone : ∀ st' : ServerState, st'.onlineUsers.get c = none →
      leaveLobby c st' = (st', []) := by
    intro st' h
    simp only [leaveLobby, h]
  have hafter : (leaveLobby c st).1.onlineUsers.get c = none := by
    cases h : st.onlineUsers.get c with
    | none => rw [hnone st h]; exact h
    | some user =>
      simp only [leaveLobby, h]
      exact JsMap.get_delete_self _ _
  refine ⟨?_, ?_, hnone st⟩
  · rw [hnone _ hafter]
  · rw [hnone _ hafter]

/-- C4: `updateUserStatus(c, s)` returns the registry unchanged when `c` has
no record; otherwise the record of `c` afterwards has status `s`,
`isAvailable = (s = 'online')` and the old socketId, userId and userName; the
record of every other connection is unchanged. -/
theorem updateUserStatus_spec (onlineUsers : JsMap SocketId User) (c : SocketId)
    (s : String) :
    (onlineUsers.get c = none → updateUserStatus onlineUsers c s = onlineUsers) ∧
    (∀ user, onlineUsers.get c = some user →
      (updateUserStatus onlineUsers c s).get c =
        some ⟨user.socketId, user.userId, user.userName, s, decide (s = "online")⟩) ∧
    (∀ c', c' ≠ c → (updateUserStatus onlineUsers c s).get c' = onlineUsers.get c') :=
  ⟨updateUserStatus_of_get_none onlineUsers c s,
   fun user h => get_updateUserStatus_self onlineUsers c s user h,
   fun c' hne => get_updateUserStatus_ne onlineUsers c c' s hne⟩

/-- Witness for C4: setting Alice's status to 'busy' keeps her identity and
clears `isAvailable`; for the unregistered `sockC` nothing changes. -/
theorem updateUserStatus_spec_witness :
    (updateUserStatus lobbyAB.onlineUsers sockA "busy").get sockA =
      some ⟨sockA, "1", "Alice", "busy", false⟩ ∧
    updateUserStatus lobbyAB.onlineUsers sockC "busy" = lobbyAB.onlineUsers :=
  ⟨(updateUserStatus_spec lobbyAB.onlineUsers sockA "busy").2.1 alice (by decide),
   (updateUserStatus_spec lobbyAB.onlineUsers sockC "busy").1 (by decide)⟩

/-! ## Call signalling router: request -/

/-- C5: a `request-call` whose `toUserId` is the userId of no record emits
exactly one message, `call-error` with message "User is not available", sent
to the requesting connection alone, and returns the state (registry included)
unchanged. -/
theorem requestCall_unknown_target (env : Env) (st : ServerState) (c : SocketId)
    (data : RequestCallData)
    (h : ∀ user ∈ st.onlineUsers.values, user.userId ≠ data.toUserId) :
    requestCall env c data st =
      (st, [⟨Target.socket c, Msg.callError "User is not available", [c]⟩]) := by
  simp only [requestCall, findSocketByUserId_eq_none st.onlineUsers data.toUserId h]
  rfl

/-- Witness for C5: Alice asks for uid 99, which nobody in the lobby has. -/
theorem requestCall_unknown_target_witness :
    (∀ user ∈ lobbyAB.onlineUsers.values, user.userId ≠ "99") ∧
    requestCall env0 sockA ⟨"99", "1", "Alice", "c1"⟩ lobbyAB =
      (lobbyAB, [⟨Target.socket sockA, Msg.callError "User is not available", [sockA]⟩]) :=
  ⟨by decide,
   requestCall_unknown_target env0 lobbyAB sockA ⟨"99", "1", "Alice", "c1"⟩ (by decide)⟩

/-- The `callId` field of a `request-call` has no influence on what the
handler does: the destructuring of line 43 does not read it. -/
theorem requestCall_ignores_callId (env : Env) (st : ServerState) (c : SocketId)
    (toUserId fromUserId fromUserName k k' : String) :
    requestCall env c ⟨toUserId, fromUserId, fromUserName, k⟩ st =
      requestCall env c ⟨toUserId, fromUserId, fromUserName, k'⟩ st := rfl

/-- C6, the code at a failing input: Alice (uid 1) sends `request-call` for
uid 2 with callId "c1"; the `incoming-call` that reaches Bob carries her
fromUserId and fromUserName but the callId made by `generateCallId`, which is
not "c1". -/
theorem requestCall_replaces_callId :
    (requestCall env0 sockA ⟨"2", "1", "Alice", "c1"⟩ lobbyAB).2 =
      [ ⟨Target.room "sB",
          Msg.incomingCall "1" "Alice" "1700000000000-4fzyo82mv" "2023-11-14T22:13:20.000Z",
          [sockB]⟩,
        ⟨Target.socket sockA, Msg.callRequestSent "2" "Call request sent!", [sockA]⟩ ] ∧
    "1700000000000-4fzyo82mv" ≠ "c1" := by
  decide

/-- C7, as stated, fails when a connection asks for its own userId: Alice's
connection is then both the requester and the located callee, and the
callee's status goes from 'online' to 'busy'. -/
theorem requestCall_self_call_changes_callee :
    (∃ user ∈ lobbyAB.onlineUsers.values, user.userId = "1") ∧
    lobbyAB.onlineUsers.get sockA = some alice ∧
    findSocketByUserId lobbyAB.onlineUsers "1" = some sockA ∧
    (lobbyAB.onlineUsers.get sockA).map User.status = some "online" ∧
    ((requestCall env0 sockA ⟨"1", "1", "Alice", "c1"⟩ lobbyAB).1.onlineUsers.get sockA).map
        User.status = some "busy" ∧
    ((requestCall env0 sockA ⟨"1", "1", "Alice", "c1"⟩ lobbyAB).1.onlineUsers.get sockA).map
        User.status ≠ (lobbyAB.onlineUsers.get sockA).map User.status := by
  decide

/-- C7, amended: when the target userId is registered and the requesting
connection `c` has a record, after `request-call` the record of `c` has status
'busy' (and is otherwise the old one, with `isAvailable = false`), and the
record of every connection other than `c` is what it was; in particular that of
the callee's connection whenever that connection is not `c` itself. -/
theorem requestCall_only_requester_changes (env : Env) (st : ServerState) (c : SocketId)
    (data : RequestCallData) (requester : User)
    (htarget : ∃ user ∈ st.onlineUsers.values, user.userId = data.toUserId)
    (hc : st.onlineUsers.get c = some requester) :
    (requestCall env c data st).1.onlineUsers.get c =
      some ⟨requester.socketId, requester.userId, requester.userName, "busy", false⟩ ∧
    (∀ c', c' ≠ c →
      (requestCall env c data st).1.onlineUsers.get c' = st.onlineUsers.get c') ∧
    (∀ callee, findSocketByUserId st.onlineUsers data.toUserId = some callee → callee ≠ c →
      (requestCall env c data st).1.onlineUsers.get callee = st.onlineUsers.get callee) := by
  obtain ⟨target, hfind⟩ := findSocketByUserId_isSome st.onlineUsers data.toUserId htarget
  rw [requestCall_of_found env st c data target hfind]
  have hd : decide (("busy" : String) = "online") = false := by decide
  refine ⟨?_, ?_, ?_⟩
  · have := get_updateUserStatus_self st.onlineUsers c "busy" requester hc
    rw [hd] at this
    exact this
  · intro c' hne
    exact get_updateUserStatus_ne st.onlineUsers c c' "busy" hne
  · intro callee _ hne
    exact get_updateUserStatus_ne st.onlineUsers c callee "busy" hne

/-- Witness for C7: Alice requests a call to Bob (uid 2) in the lobby of Alice
and Bob. -/
theorem requestCall_only_requester_changes_witness :
    (requestCall env0 sockA ⟨"2", "1", "Alice", "c1"⟩ lobbyAB).1.onlineUsers.get sockA =
      some ⟨sockA, "1", "Alice", "busy", false⟩ ∧
    (requestCall env0 sockA ⟨"2", "1", "Alice", "c1"⟩ lobbyAB).1.onlineUsers.get sockB =
      some bob :=
  have h := requestCall_only_requester_changes env0 lobbyAB sockA ⟨"2", "1", "Alice", "c1"⟩
    alice ⟨bob, by decide, by decide⟩ (by decide)
  ⟨h.1, (h.2.1 sockB (by decide)).trans (by decide)⟩

/-! ## Call signalling router: accept -/

/-- C8: when some record has userId = fromUserId and the accepting connection
`c` has a record, then after `accept-call` the record of the located caller
connection (the first one with that userId) and the record of `c` both have
status 'in-call' and `isAvailable = false`, their other fields unchanged. -/
theorem acceptCall_both_in_call (st : ServerState) (c : SocketId) (data : AcceptCallData)
    (recCallee : User)
    (hcaller : ∃ user ∈ st.onlineUsers.values, user.userId = data.fromUserId)
    (hcallee : st.onlineUsers.get c = some recCallee) :
    ∃ caller recCaller,
      findSocketByUserId st.onlineUsers data.fromUserId = some caller ∧
      st.onlineUsers.get caller = some recCaller ∧
      (acceptCall c data st).1.onlineUsers.get caller =
        some ⟨recCaller.socketId, recCaller.userId, recCaller.userName, "in-call", false⟩ ∧
      (acceptCall c data st).1.onlineUsers.get c =
        some ⟨recCallee.socketId, recCallee.userId, recCallee.userName, "in-call", false⟩ := by
  obtain ⟨caller, hfind⟩ := findSocketByUserId_isSome st.onlineUsers data.fromUserId hcaller
  obtain ⟨recCaller, hget, _⟩ := findSocketByUserId_some st.onlineUsers data.fromUserId caller hfind
  refine ⟨caller, recCaller, hfind, hget, ?_⟩
  rw [acceptCall_of_found st c data caller hfind]
  exact get_after_accept st.onlineUsers caller c recCaller recCallee hget hcallee

/-- Witness for C8: Bob accepts the call of Alice (uid 1). -/
theorem acceptCall_both_in_call_witness :
    ∃ caller recCaller,
      findSocketByUserId lobbyAB.onlineUsers "1" = some caller ∧
      lobbyAB.onlineUsers.get caller = some recCaller ∧
      (acceptCall sockB ⟨"c1", "1", "2"⟩ lobbyAB).1.onlineUsers.get caller =
        some ⟨recCaller.socketId, recCaller.userId, recCaller.userName, "in-call", false⟩ ∧
      (acceptCall sockB ⟨"c1", "1", "2"⟩ lobbyAB).1.onlineUsers.get sockB =
        some ⟨sockB, "2", "Bob", "in-call", false⟩ :=
  acceptCall_both_in_call lobbyAB sockB ⟨"c1", "1", "2"⟩ bob ⟨alice, by decide, by decide⟩
    (by decide)

/-- When no record has userId = fromUserId, `accept-call` changes nothing and
emits nothing. -/
theorem acceptCall_unknown_caller (st : ServerState) (c : SocketId) (data : AcceptCallData)
    (h : ∀ user ∈ st.onlineUsers.values, user.userId ≠ data.fromUserId) :
    acceptCall c data st = (st, []) := by
  simp only [acceptCall, findSocketByUserId_eq_none st.onlineUsers data.fromUserId h]

/-- C9, the code at a failing input: the connection `sC` has no record and
accepts a call of Alice (uid 1). The accept takes effect all the same: Alice's
record becomes 'in-call', `sC` and Alice's socket are put in room "call-c1",
and `call-started` (with `undefined` for the callee's record) and
`users-update` are emitted. -/
theorem acceptCall_unregistered_callee_takes_effect :
    lobbyAB.onlineUsers.get sockC = none ∧
    (acceptCall sockC ⟨"c1", "1", "3"⟩ lobbyAB).1.onlineUsers.entries =
      [(sockA, ⟨sockA, "1", "Alice", "in-call", false⟩), (sockB, bob)] ∧
    (acceptCall sockC ⟨"c1", "1", "3"⟩ lobbyAB).1.sockets.entries =
      [(sockA, ["sA", "call-c1"]), (sockB, ["sB"]), (sockC, ["sC", "call-c1"])] ∧
    (acceptCall sockC ⟨"c1", "1", "3"⟩ lobbyAB).2 =
      [ ⟨Target.room "call-c1",
          Msg.callStarted "c1" "call-c1" [some ⟨sockA, "1", "Alice", "in-call", false⟩, none],
          [sockA, sockC]⟩,
        ⟨Target.all,
          Msg.usersUpdate [⟨sockA, "1", "Alice", "in-call", false⟩, bob],
          [sockA, sockB, sockC]⟩ ] := by
  decide

/-- C10: when every registered connection is a connected socket, some record
has userId = fromUserId and the accepting connection `c` has a record, the
handler of `accept-call` with callId `k` emits `call-started` to room
"call-" ++ k, then the roster; both the caller's connection and `c` receive
`call-started`, which carries callId = k, roomId = "call-" ++ k and users =
[caller's record, callee's record], both with status 'in-call'. -/
theorem acceptCall_emits_callStarted (st : ServerState) (c : SocketId)
    (data : AcceptCallData) (recCallee : User)
    (hconn : ∀ k ∈ st.onlineUsers.keys, k ∈ st.sockets.keys)
    (hcaller : ∃ user ∈ st.onlineUsers.values, user.userId = data.fromUserId)
    (hcallee : st.onlineUsers.get c = some recCallee) :
    ∃ caller recCaller recipients,
      findSocketByUserId st.onlineUsers data.fromUserId = some caller ∧
      st.onlineUsers.get caller = some recCaller ∧
      (acceptCall c data st).2 =
        [ ⟨Target.room ("call-" ++ data.callId),
            Msg.callStarted data.callId ("call-" ++ data.callId)
              [ some ⟨recCaller.socketId, recCaller.userId, recCaller.userName, "in-call",
                  false⟩,
                some ⟨recCallee.socketId, recCallee.userId, recCallee.userName, "in-call",
                  false⟩ ],
            recipients⟩,
          broadcastUserList (acceptCall c data st).1 ] ∧
      caller ∈ recipients ∧ c ∈ recipients ∧
      (acceptCall c data st).1.onlineUsers.get caller =
        some ⟨recCaller.socketId, recCaller.userId, recCaller.userName, "in-call", false⟩ ∧
      (acceptCall c data st).1.onlineUsers.get c =
        some ⟨recCallee.socketId, recCallee.userId, recCallee.userName, "in-call", false⟩ := by
  obtain ⟨caller, hfind⟩ := findSocketByUserId_isSome st.onlineUsers data.fromUserId hcaller
  obtain ⟨recCaller, hget, _⟩ := findSocketByUserId_some st.onlineUsers data.fromUserId caller hfind
  have hcConn : c ∈ st.sockets.keys :=
    hconn c ((JsMap.mem_keys_iff st.onlineUsers c).mpr ⟨recCallee, hcallee⟩)
  have hcallerConn : caller ∈ st.sockets.keys :=
    hconn caller ((JsMap.mem_keys_iff st.onlineUsers caller).mpr ⟨recCaller, hget⟩)
  obtain ⟨h1, h2⟩ := get_after_accept st.onlineUsers caller c recCaller recCallee hget hcallee
  refine ⟨caller, recCaller,
    roomMembers (joinRoom (joinRoom st.sockets c ("call-" ++ data.callId)) caller
      ("call-" ++ data.callId)) ("call-" ++ data.callId),
    hfind, hget, ?_, ?_, ?_, ?_, ?_⟩
  · rw [acceptCall_of_found st c data caller hfind]
    simp only [emitToRoom, h1, h2]
  · apply mem_roomMembers_joinRoom_self
    rw [keys_joinRoom]
    exact hcallerConn
  · apply mem_roomMembers_joinRoom_of_mem
    exact mem_roomMembers_joinRoom_self _ _ _ hcConn
  · rw [acceptCall_of_found st c data caller hfind]
    exact h1
  · rw [acceptCall_of_found st c data caller hfind]
    exact h2

/-- Witness for C10: Bob accepts the call "c1" of Alice (uid 1); both sockets
are connected. -/
theorem acceptCall_emits_callStarted_witness :
    (∀ k ∈ lobbyAB.onlineUsers.keys, k ∈ lobbyAB.sockets.keys) ∧
    ∃ caller recCaller recipients,
      findSocketByUserId lobbyAB.onlineUsers "1" = some caller ∧
      lobbyAB.onlineUsers.get caller = some recCaller ∧
      (acceptCall sockB ⟨"c1", "1", "2"⟩ lobbyAB).2 =
        [ ⟨Target.room ("call-" ++ "c1"),
            Msg.callStarted "c1" ("call-" ++ "c1")
              [ some ⟨recCaller.socketId, recCaller.userId, recCaller.userName, "in-call",
                  false⟩,
                some ⟨sockB, "2", "Bob", "in-call", false⟩ ],
            recipients⟩,
          broadcastUserList (acceptCall sockB ⟨"c1", "1", "2"⟩ lobbyAB).1 ] ∧
      caller ∈ recipients ∧ sockB ∈ recipients ∧
      (acceptCall sockB ⟨"c1", "1", "2"⟩ lobbyAB).1.onlineUsers.get caller =
        some ⟨recCaller.socketId, recCaller.userId, recCaller.userName, "in-call", false⟩ ∧
      (acceptCall sockB ⟨"c1", "1", "2"⟩ lobbyAB).1.onlineUsers.get sockB =
        some ⟨sockB, "2", "Bob", "in-call", false⟩ :=
  ⟨by decide,
   acceptCall_emits_callStarted lobbyAB sockB ⟨"c1", "1", "2"⟩ bob (by decide)
     ⟨alice, by decide, by decide⟩ (by decide)⟩

/-! ## Call signalling router: reject -/

/-- C11: when some record has userId = fromUserId and the rejecting connection
`c` has a record, the handler of `reject-call` with callId `k` emits
`call-rejected` with callId = k to the room of the requester's connection (the
first record with that userId), which that connection receives, then the
roster; afterwards the requester's record and that of `c` have status
'online'. The hypothesis says that registered connections are in the room
named by their own id, where socket.io puts them. -/
theorem rejectCall_notifies_and_resets (st : ServerState) (c : SocketId)
    (data : RejectCallData) (recRejecter : User)
    (hown : ∀ s ∈ st.onlineUsers.keys, s ∈ roomMembers st.sockets s.id)
    (hcaller : ∃ user ∈ st.onlineUsers.values, user.userId = data.fromUserId)
    (hc : st.onlineUsers.get c = some recRejecter) :
    ∃ caller recCaller recipients,
      findSocketByUserId st.onlineUsers data.fromUserId = some caller ∧
      st.onlineUsers.get caller = some recCaller ∧
      (rejectCall c data st).2 =
        [ ⟨Target.room caller.id, Msg.callRejected data.callId "Call was rejected",
            recipients⟩,
          broadcastUserList (rejectCall c data st).1 ] ∧
      caller ∈ recipients ∧
      (rejectCall c data st).1.onlineUsers.get caller =
        some ⟨recCaller.socketId, recCaller.userId, recCaller.userName, "online", true⟩ ∧
      (rejectCall c data st).1.onlineUsers.get c =
        some ⟨recRejecter.socketId, recRejecter.userId, recRejecter.userName, "online",
          true⟩ := by
  obtain ⟨caller, hfind⟩ := findSocketByUserId_isSome st.onlineUsers data.fromUserId hcaller
  obtain ⟨recCaller, hget, _⟩ := findSocketByUserId_some st.onlineUsers data.fromUserId caller hfind
  have hmem : caller ∈ roomMembers st.sockets caller.id :=
    hown caller ((JsMap.mem_keys_iff st.onlineUsers caller).mpr ⟨recCaller, hget⟩)
  obtain ⟨h1, h2⟩ := get_after_two_updates st.onlineUsers caller c "online" recCaller
    recRejecter hget hc
  have hd : decide (("online" : String) = "online") = true := by decide
  rw [hd] at h1 h2
  refine ⟨caller, recCaller, roomMembers st.sockets caller.id, hfind, hget, ?_, hmem, ?_, ?_⟩
  · rw [rejectCall_of_found st c data caller hfind]
    rfl
  · rw [rejectCall_of_found st c data caller hfind]
    exact h1
  · rw [rejectCall_of_found st c data caller hfind]
    exact h2

/-- Witness for C11: Alice (uid 1) is busy after her request; Bob rejects it. -/
theorem rejectCall_notifies_and_resets_witness :
    ∃ caller recCaller recipients,
      findSocketByUserId
          (requestCall env0 sockA ⟨"2", "1", "Alice", "c1"⟩ lobbyAB).1.onlineUsers "1" =
        some caller ∧
      (requestCall env0 sockA ⟨"2", "1", "Alice", "c1"⟩ lobbyAB).1.onlineUsers.get caller =
        some recCaller ∧
      (rejectCall sockB ⟨"k1", "1"⟩
          (requestCall env0 sockA ⟨"2", "1", "Alice", "c1"⟩ lobbyAB).1).2 =
        [ ⟨Target.room caller.id, Msg.callRejected "k1" "Call was rejected", recipients⟩,
          broadcastUserList
            (rejectCall sockB ⟨"k1", "1"⟩
              (requestCall env0 sockA ⟨"2", "1", "Alice", "c1"⟩ lobbyAB).1).1 ] ∧
      caller ∈ recipients ∧
      (rejectCall sockB ⟨"k1", "1"⟩
          (requestCall env0 sockA ⟨"2", "1", "Alice", "c1"⟩ lobbyAB).1).1.onlineUsers.get
          caller =
        some ⟨recCaller.socketId, recCaller.userId, recCaller.userName, "online", true⟩ ∧
      (rejectCall sockB ⟨"k1", "1"⟩
          (requestCall env0 sockA ⟨"2", "1", "Alice", "c1"⟩ lobbyAB).1).1.onlineUsers.get
          sockB =
        some ⟨sockB, "2", "Bob", "online", true⟩ :=
  rejectCall_notifies_and_resets
    (requestCall env0 sockA ⟨"2", "1", "Alice", "c1"⟩ lobbyAB).1 sockB ⟨"k1", "1"⟩ bob
    (by decide) ⟨⟨sockA, "1", "Alice", "busy", false⟩, by decide, by decide⟩ (by decide)

/-! ## Call signalling router: end -/

/-- C12: in the state reached by an `accept-call` with callId `k` that located
the caller's connection `a` and was sent by a registered connection `b`
(registered connections being connected sockets), an `end-call` with callId
`k` from `a` emits `call-ended` with callId = k to room "call-" ++ k and `b`
receives it; likewise one from `b` reaches `a`. -/
theorem endCall_reaches_other_participant (st : ServerState) (b : SocketId)
    (data : AcceptCallData) (recB : User)
    (hconn : ∀ k ∈ st.onlineUsers.keys, k ∈ st.sockets.keys)
    (hcaller : ∃ user ∈ st.onlineUsers.values, user.userId = data.fromUserId)
    (hb : st.onlineUsers.get b = some recB) :
    ∃ a, findSocketByUserId st.onlineUsers data.fromUserId = some a ∧
      (∃ recipients,
        (endCall a ⟨data.callId⟩ (acceptCall b data st).1).2 =
          [ ⟨Target.room ("call-" ++ data.callId),
              Msg.callEnded data.callId "Call ended", recipients⟩,
            broadcastUserList (endCall a ⟨data.callId⟩ (acceptCall b data st).1).1 ] ∧
        b ∈ recipients) ∧
      (∃ recipients,
        (endCall b ⟨data.callId⟩ (acceptCall b data st).1).2 =
          [ ⟨Target.room ("call-" ++ data.callId),
              Msg.callEnded data.callId "Call ended", recipients⟩,
            broadcastUserList (endCall b ⟨data.callId⟩ (acceptCall b data st).1).1 ] ∧
        a ∈ recipients) := by
  obtain ⟨a, hfind⟩ := findSocketByUserId_isSome st.onlineUsers data.fromUserId hcaller
  obtain ⟨recA, hget, _⟩ := findSocketByUserId_some st.onlineUsers data.fromUserId a hfind
  have hbConn : b ∈ st.sockets.keys :=
    hconn b ((JsMap.mem_keys_iff st.onlineUsers b).mpr ⟨recB, hb⟩)
  have haConn : a ∈ st.sockets.keys :=
    hconn a ((JsMap.mem_keys_iff st.onlineUsers a).mpr ⟨recA, hget⟩)
  have hsock : (acceptCall b data st).1.sockets =
      joinRoom (joinRoom st.sockets b ("call-" ++ data.callId)) a ("call-" ++ data.callId) := by
    rw [acceptCall_of_found st b data a hfind]
  have hbIn : b ∈ roomMembers (acceptCall b data st).1.sockets ("call-" ++ data.callId) := by
    rw [hsock]
    exact mem_roomMembers_joinRoom_of_mem _ _ _ _ _ (mem_roomMembers_joinRoom_self _ _ _ hbConn)
  have haIn : a ∈ roomMembers (acceptCall b data st).1.sockets ("call-" ++ data.callId) := by
    rw [hsock]
    apply mem_roomMembers_joinRoom_self
    rw [keys_joinRoom]
    exact haConn
  exact ⟨a, hfind, ⟨_, endCall_snd a ⟨data.callId⟩ _, hbIn⟩, ⟨_, endCall_snd b ⟨data.callId⟩ _, haIn⟩⟩

/-- Witness for C12: Bob accepts Alice's call "c1" in the lobby of Alice and
Bob; whoever ends it, the other one receives `call-ended`. -/
theorem endCall_reaches_other_participant_witness :
    ∃ a, findSocketByUserId lobbyAB.onlineUsers "1" = some a ∧
      (∃ recipients,
        (endCall a ⟨"c1"⟩ (acceptCall sockB ⟨"c1", "1", "2"⟩ lobbyAB).1).2 =
          [ ⟨Target.room ("call-" ++ "c1"), Msg.callEnded "c1" "Call ended", recipients⟩,
            broadcastUserList
              (endCall a ⟨"c1"⟩ (acceptCall sockB ⟨"c1", "1", "2"⟩ lobbyAB).1).1 ] ∧
        sockB ∈ recipients) ∧
      (∃ recipients,
        (endCall sockB ⟨"c1"⟩ (acceptCall sockB ⟨"c1", "1", "2"⟩ lobbyAB).1).2 =
          [ ⟨Target.room ("call-" ++ "c1"), Msg.callEnded "c1" "Call ended", recipients⟩,
            broadcastUserList
              (endCall sockB ⟨"c1"⟩ (acceptCall sockB ⟨"c1", "1", "2"⟩ lobbyAB).1).1 ] ∧
        a ∈ recipients) :=
  endCall_reaches_other_participant lobbyAB sockB ⟨"c1", "1", "2"⟩ bob (by decide)
    ⟨alice, by decide, by decide⟩ (by decide)

/-- C13, as stated, fails: Alice and Bob are in call "c1" and Alice has sent
`end-call` once. Bob is still in room "call-c1" (only Alice left it), and
Alice's second `end-call` delivers `call-ended` to Bob again and broadcasts
the roster again. -/
theorem endCall_second_time_reaches_peer :
    roomMembers (endCall sockA ⟨"c1"⟩ callAB).1.sockets "call-c1" = [sockB] ∧
    (endCall sockA ⟨"c1"⟩ (endCall sockA ⟨"c1"⟩ callAB).1).2 =
      [ ⟨Target.room "call-c1", Msg.callEnded "c1" "Call ended", [sockB]⟩,
        ⟨Target.all,
          Msg.usersUpdate
            [⟨sockA, "1", "Alice", "online", true⟩, ⟨sockB, "2", "Bob", "in-call", false⟩],
          [sockA, sockB, sockC]⟩ ] := by
  decide

/-- C13, amended: when `b` is in room "call-" ++ k (as after an accepted call)
and another connection `a` has sent `end-call` for `k`, a second `end-call`
for `k` from `a` leaves the whole state, so the registry and the membership of
the room, as the first one left it; it is not a no-op: `call-ended` is emitted
again and reaches `b`, who is still in the room, but not `a`, and the roster
is broadcast again. -/
theorem endCall_repeated (st : ServerState) (a b : SocketId) (k : String)
    (hb : b ∈ roomMembers st.sockets ("call-" ++ k)) (hne : b ≠ a) :
    ∃ recipients,
      endCall a ⟨k⟩ (endCall a ⟨k⟩ st).1 =
        ((endCall a ⟨k⟩ st).1,
          [ ⟨Target.room ("call-" ++ k), Msg.callEnded k "Call ended", recipients⟩,
            broadcastUserList (endCall a ⟨k⟩ st).1 ]) ∧
      b ∈ recipients ∧ a ∉ recipients ∧
      roomMembers (endCall a ⟨k⟩ st).1.sockets ("call-" ++ k) = recipients := by
  have hstate : (endCall a ⟨k⟩ (endCall a ⟨k⟩ st).1).1 = (endCall a ⟨k⟩ st).1 := by
    rw [endCall_fst, endCall_fst]
    simp only [updateUserStatus_idem, leaveRoom_idem]
  refine ⟨roomMembers (endCall a ⟨k⟩ st).1.sockets ("call-" ++ k), ?_, ?_, ?_, rfl⟩
  · apply Prod.ext
    · exact hstate
    · rw [endCall_snd, hstate]
  · rw [endCall_fst]
    exact (mem_roomMembers_leaveRoom _ _ _ _).mpr ⟨hne, hb⟩
  · rw [endCall_fst]
    intro h
    exact ((mem_roomMembers_leaveRoom _ _ _ _).mp h).1 rfl

/-- Witness for C13 (amended): Alice ends call "c1" with Bob twice. -/
theorem endCall_repeated_witness :
    ∃ recipients,
      endCall sockA ⟨"c1"⟩ (endCall sockA ⟨"c1"⟩ callAB).1 =
        ((endCall sockA ⟨"c1"⟩ callAB).1,
          [ ⟨Target.room ("call-" ++ "c1"), Msg.callEnded "c1" "Call ended", recipients⟩,
            broadcastUserList (endCall sockA ⟨"c1"⟩ callAB).1 ]) ∧
      sockB ∈ recipients ∧ sockA ∉ recipients ∧
      roomMembers (endCall sockA ⟨"c1"⟩ callAB).1.sockets ("call-" ++ "c1") = recipients :=
  endCall_repeated callAB sockA sockB "c1" (by decide) (by decide)

/-- C14: after an `end-call` sent by connection `c`, the record of `c`, if it
has one, has status 'online' (and is otherwise the old one), and the record of
every other connection is unchanged; in particular, after an accepted call
between two different connections, the participant that did not send the
`end-call` still has status 'in-call'. -/
theorem endCall_resets_only_sender :
    (∀ (st : ServerState) (c : SocketId) (data : EndCallData),
      (∀ rec, st.onlineUsers.get c = some rec →
        (endCall c data st).1.onlineUsers.get c =
          some ⟨rec.socketId, rec.userId, rec.userName, "online", true⟩) ∧
      (∀ c', c' ≠ c → (endCall c data st).1.onlineUsers.get c' = st.onlineUsers.get c')) ∧
    (∀ (st : ServerState) (a b : SocketId) (data : AcceptCallData) (recA recB : User)
      (k : String),
      findSocketByUserId st.onlineUsers data.fromUserId = some a →
      st.onlineUsers.get a = some recA → st.onlineUsers.get b = some recB → a ≠ b →
      (endCall a ⟨k⟩ (acceptCall b data st).1).1.onlineUsers.get b =
        some ⟨recB.socketId, recB.userId, recB.userName, "in-call", false⟩ ∧
      (endCall b ⟨k⟩ (acceptCall b data st).1).1.onlineUsers.get a =
        some ⟨recA.socketId, recA.userId, recA.userName, "in-call", false⟩) := by
  have hd : decide (("online" : String) = "online") = true := by decide
  refine ⟨fun st c data => ⟨?_, ?_⟩, ?_⟩
  · intro rec hrec
    have := get_updateUserStatus_self st.onlineUsers c "online" rec hrec
    rw [hd] at this
    exact this
  · intro c' hne
    exact get_updateUserStatus_ne st.onlineUsers c c' "online" hne
  · intro st a b data recA recB k hfind ha hb hne
    obtain ⟨h1, h2⟩ := get_after_accept st.onlineUsers a b recA recB ha hb
    have hreg : (acceptCall b data st).1.onlineUsers =
        updateUserStatus (updateUserStatus st.onlineUsers a "in-call") b "in-call" := by
      rw [acceptCall_of_found st b data a hfind]
    constructor
    · rw [endCall_fst, hreg]
      show (updateUserStatus _ a "online").get b = _
      rw [get_updateUserStatus_ne _ _ _ _ (fun h => hne h.symm)]
      exact h2
    · rw [endCall_fst, hreg]
      show (updateUserStatus _ b "online").get a = _
      rw [get_updateUserStatus_ne _ _ _ _ hne]
      exact h1

/-- Witness for C14: Alice ends call "c1"; she is 'online' again and Bob is
still 'in-call'. -/
theorem endCall_resets_only_sender_witness :
    (endCall sockA ⟨"c1"⟩ callAB).1.onlineUsers.get sockA =
      some ⟨sockA, "1", "Alice", "online", true⟩ ∧
    (endCall sockA ⟨"c1"⟩ (acceptCall sockB ⟨"c1", "1", "2"⟩ lobbyAB).1).1.onlineUsers.get
        sockB =
      some ⟨sockB, "2", "Bob", "in-call", false⟩ :=
  ⟨(endCall_resets_only_sender.1 callAB sockA ⟨"c1"⟩).1
      ⟨sockA, "1", "Alice", "in-call", false⟩ (by decide),
   (endCall_resets_only_sender.2 lobbyAB sockA sockB ⟨"c1", "1", "2"⟩ alice bob "c1"
      (by decide) (by decide) (by decide) (by decide)).1⟩

/-! ## Call signalling router: relay of WebRTC signals -/

/-- C15: a `webrtc-signal` from a connection `c` with record `sender` never
changes the state. When some record has userId = toUserId, exactly one
message is emitted: `webrtc-signal` to the room of the first connection in the
registry with that userId (which receives it, being in the room named by its
id), carrying the received signal and callId and `fromUserId` = the userId
the registry holds for `c`. When no record has that userId nothing is
emitted. -/
theorem webrtcSignal_relays (st : ServerState) (c : SocketId) (data : SignalData)
    (sender : User)
    (hown : ∀ s ∈ st.onlineUsers.keys, s ∈ roomMembers st.sockets s.id)
    (hc : st.onlineUsers.get c = some sender) :
    ((∃ user ∈ st.onlineUsers.values, user.userId = data.toUserId) →
      ∃ target earlier rec later recipients,
        st.onlineUsers.entries = earlier ++ (target, rec) :: later ∧
        rec.userId = data.toUserId ∧ (∀ e ∈ earlier, e.2.userId ≠ data.toUserId) ∧
        webrtcSignal c data st =
          Except.ok (st,
            [ ⟨Target.room target.id,
                Msg.webrtcSignal sender.userId data.signal data.callId, recipients⟩ ]) ∧
        target ∈ recipients) ∧
    ((∀ user ∈ st.onlineUsers.values, user.userId ≠ data.toUserId) →
      webrtcSignal c data st = Except.ok (st, [])) := by
  constructor
  · intro htarget
    obtain ⟨target, hfind⟩ := findSocketByUserId_isSome st.onlineUsers data.toUserId htarget
    obtain ⟨earlier, rec, later, hl, hrec, hbefore⟩ :=
      findSocketByUserId_first st.onlineUsers data.toUserId target hfind
    have hmemE : (target, rec) ∈ st.onlineUsers.entries := by
      rw [hl]
      simp
    have hkey : target ∈ st.onlineUsers.keys :=
      (JsMap.mem_keys_iff _ _).mpr ⟨rec, (JsMap.get_eq_some_iff _ _ _).mpr hmemE⟩
    refine ⟨target, earlier, rec, later, roomMembers st.sockets target.id, hl, hrec, hbefore,
      ?_, hown target hkey⟩
    simp only [webrtcSignal, hfind, truthy_some, hc]
    rfl
  · intro hnone
    simp only [webrtcSignal, findSocketByUserId_eq_none st.onlineUsers data.toUserId hnone]

/-- Witness for C15: Alice sends an offer for uid 2; it goes to Bob's
connection with `fromUserId` "1". -/
theorem webrtcSignal_relays_witness :
    webrtcSignal sockA ⟨"2", "offer", "c1"⟩ callAB =
      Except.ok (callAB,
        [⟨Target.room "sB", Msg.webrtcSignal "1" "offer" "c1", [sockB]⟩]) ∧
    webrtcSignal sockA ⟨"99", "offer", "c1"⟩ callAB = Except.ok (callAB, []) :=
  ⟨rfl,
   (webrtcSignal_relays callAB sockA ⟨"99", "offer", "c1"⟩
      ⟨sockA, "1", "Alice", "in-call", false⟩ (by decide) (by decide)).2 (by decide)⟩

/-- C16, the code at a failing input: the connected socket `sC` has not joined
the lobby and sends a `webrtc-signal` for Bob (uid 2), who is registered. The
handler reads `.userId` of `undefined` and throws. -/
theorem webrtcSignal_unregistered_sender_throws :
    lobbyAB.sockets.get sockC = some ["sC"] ∧
    lobbyAB.onlineUsers.get sockC = none ∧
    handle env0 sockC (Event.webrtcSignal ⟨"2", "offer", "c1"⟩) lobbyAB =
      Except.error "TypeError: cannot read userId of undefined" :=
  ⟨by decide, by decide, rfl⟩

/-! ## Disconnect during a call -/

/-- C17: in a state where records are stored under their own socketId and two
different connections `a` and `b` have records, that of `b` with status
'in-call', the handler of `disconnect` for `a` returns (it is a total
function), removes the record of `a`, so that no roster entry has socketId
`a`, leaves the record of `b` as it was, and emits exactly one message, the
`users-update` broadcast with the new roster, which `a` itself does not
receive. -/
theorem disconnect_mid_call (st : ServerState) (a b : SocketId) (recA recB : User)
    (hkeys : ∀ k u, st.onlineUsers.get k = some u → u.socketId = k)
    (ha : st.onlineUsers.get a = some recA) (hb : st.onlineUsers.get b = some recB)
    (hne : a ≠ b) (hcall : recB.status = "in-call") :
    (disconnect a st).1.onlineUsers.get a = none ∧
    (∀ e ∈ getUsersList (disconnect a st).1.onlineUsers, e.socketId ≠ a) ∧
    (disconnect a st).1.onlineUsers.get b = some recB ∧
    ((disconnect a st).1.onlineUsers.get b).map User.status = some "in-call" ∧
    (disconnect a st).2 =
      [ ⟨Target.all, Msg.usersUpdate (getUsersList (disconnect a st).1.onlineUsers),
          (disconnect a st).1.sockets.keys⟩ ] ∧
    a ∉ (disconnect a st).1.sockets.keys := by
  have hreg : (disconnect a st).1.onlineUsers = st.onlineUsers.delete a := by
    rw [disconnect_fst]
    simp only [ha]
  have hsock : (disconnect a st).1.sockets = st.sockets.delete a := by
    rw [disconnect_fst]
  have hgetb : (disconnect a st).1.onlineUsers.get b = some recB := by
    rw [hreg, JsMap.get_delete_ne _ _ _ (fun h => hne h.symm)]
    exact hb
  refine ⟨?_, ?_, hgetb, ?_, ?_, ?_⟩
  · rw [hreg]
    exact JsMap.get_delete_self _ _
  · intro e he
    rw [getUsersList_eq_values, hreg] at he
    obtain ⟨kv, hkv, rfl⟩ := List.mem_map.mp he
    have hget : (st.onlineUsers.delete a).get kv.1 = some kv.2 :=
      (JsMap.get_eq_some_iff _ _ _).mpr hkv
    obtain ⟨hk, hget'⟩ := JsMap.get_delete_some _ _ _ _ hget
    rw [hkeys kv.1 kv.2 hget']
    exact hk
  · rw [hgetb, Option.map_some', hcall]
  · simp only [disconnect, ha]
    rfl
  · rw [hsock]
    intro h
    exact ((JsMap.mem_keys_delete _ _ _).mp h).1 rfl

/-- Witness for C17: Alice disconnects during call "c1" with Bob. -/
theorem disconnect_mid_call_witness :
    (disconnect sockA callAB).1.onlineUsers.get sockA = none ∧
    (∀ e ∈ getUsersList (disconnect sockA callAB).1.onlineUsers, e.socketId ≠ sockA) ∧
    (disconnect sockA callAB).1.onlineUsers.get sockB =
      some ⟨sockB, "2", "Bob", "in-call", false⟩ ∧
    ((disconnect sockA callAB).1.onlineUsers.get sockB).map User.status = some "in-call" ∧
    (disconnect sockA callAB).2 =
      [ ⟨Target.all, Msg.usersUpdate (getUsersList (disconnect sockA callAB).1.onlineUsers),
          (disconnect sockA callAB).1.sockets.keys⟩ ] ∧
    sockA ∉ (disconnect sockA callAB).1.sockets.keys :=
  disconnect_mid_call callAB sockA sockB ⟨sockA, "1", "Alice", "in-call", false⟩
    ⟨sockB, "2", "Bob", "in-call", false⟩
    (fun k u h =>
      (by decide : ∀ e ∈ callAB.onlineUsers.entries, e.2.socketId = e.1) (k, u)
        ((JsMap.get_eq_some_iff _ _ _).mp h))
    (by decide) (by decide) (by decide) (by decide)

/-! ## Lobby client state machine -/

/-- C18: `LobbyManager.requestCall`. When callState is not 'idle' the page is
unchanged and no message is emitted (there is only the alert). When callState
is 'idle' and the user confirms, callState becomes 'requesting', activeCall
holds the target and the generated callId, and exactly one message is
emitted: `request-call` with toUserId = the target, fromUserId = the current
user's uid and callId = activeCall.callId. When the user does not confirm
nothing happens. -/
theorem client_requestCall_guarded (env : Env) (confirmed : Bool)
    (toUserId toUserName : String) (p : Page) :
    (p.lobbyManager.callState ≠ "idle" →
      (LobbyManager.requestCall env confirmed toUserId toUserName p).1 = p ∧
      ∀ msg, Effect.emit msg ∉
        (LobbyManager.requestCall env confirmed toUserId toUserName p).2) ∧
    (p.lobbyManager.callState = "idle" → confirmed = true →
      ∃ activeCall,
        (LobbyManager.requestCall env confirmed toUserId toUserName p).1 =
          ⟨{ currentUser := p.lobbyManager.currentUser
             callState := "requesting"
             activeCall := some activeCall }, p.videoChat⟩ ∧
        activeCall.toUserId = some toUserId ∧
        activeCall.toUserName = some toUserName ∧
        activeCall.callId = toString env.now ++ "-" ++ substr env.random36 2 9 ∧
        (LobbyManager.requestCall env confirmed toUserId toUserName p).2 =
          [ Effect.emit
              (ClientMsg.requestCall toUserId p.lobbyManager.currentUser.uid
                (jsOr p.lobbyManager.currentUser.displayName p.lobbyManager.currentUser.email)
                activeCall.callId) ]) ∧
    (p.lobbyManager.callState = "idle" → confirmed = false →
      LobbyManager.requestCall env confirmed toUserId toUserName p = (p, [])) := by
  refine ⟨?_, ?_, ?_⟩
  · intro h
    simp [LobbyManager.requestCall, h]
  · intro h hc
    subst hc
    refine ⟨⟨some toUserId, some toUserName, none, none,
      toString env.now ++ "-" ++ substr env.random36 2 9, none⟩, ?_, rfl, rfl, rfl, ?_⟩
    · simp [LobbyManager.requestCall, h]
    · simp [LobbyManager.requestCall, h]
  · intro h hc
    subst hc
    simp [LobbyManager.requestCall, h]

/-- Witness for C18: Alice, idle, confirms a call to Bob (uid 2); Bob, who is
ringing, tries to call somebody. -/
theorem client_requestCall_guarded_witness :
    (∃ activeCall,
      (LobbyManager.requestCall env0 true "2" "Bob" aliceIdle).1 =
        ⟨{ currentUser := aliceUser, callState := "requesting",
           activeCall := some activeCall }, aliceIdle.videoChat⟩ ∧
      activeCall.toUserId = some "2" ∧
      activeCall.toUserName = some "Bob" ∧
      activeCall.callId = toString env0.now ++ "-" ++ substr env0.random36 2 9 ∧
      (LobbyManager.requestCall env0 true "2" "Bob" aliceIdle).2 =
        [ Effect.emit
            (ClientMsg.requestCall "2" "1"
              (jsOr aliceUser.displayName aliceUser.email) activeCall.callId) ]) ∧
    (LobbyManager.requestCall env0 true "1" "Alice" bobRinging).1 = bobRinging :=
  ⟨(client_requestCall_guarded env0 true "2" "Bob" aliceIdle).2.1 (by decide) rfl,
   ((client_requestCall_guarded env0 true "1" "Alice" bobRinging).1 (by decide)).1⟩

/-- C19: the 30-second timer of `handleIncomingCall`. Handling an
`incoming-call` makes the tab 'ringing' with the call as active call and arms
exactly one timer, of 30000 ms, whose callback is `autoRejectTimeout`. When
that callback runs with no accept or reject in between, it emits
`reject-call` with the callId and fromUserId of that call and nothing else,
and leaves callState 'idle' and activeCall `null`; when it runs after the
local accept or after the local reject it changes nothing and emits nothing.
In general, on any page: with callState 'ringing' (and so with an active
call) the callback emits `reject-call` with the active call's callId and
fromUserId and resets the call state; with any other callState it changes
nothing and emits nothing. -/
theorem autoReject_timer (fromUserId fromUserName callId : String) (p : Page) :
    LobbyManager.handleIncomingCall fromUserId fromUserName callId p =
      (⟨{ currentUser := p.lobbyManager.currentUser
          callState := "ringing"
          activeCall := some ⟨none, none, some fromUserId, some fromUserName, callId, none⟩ },
          p.videoChat⟩,
        [Effect.setTimeout 30000]) ∧
    LobbyManager.autoRejectTimeout
        (LobbyManager.handleIncomingCall fromUserId fromUserName callId p).1 =
      (⟨{ currentUser := p.lobbyManager.currentUser
          callState := "idle"
          activeCall := none }, p.videoChat⟩,
        [Effect.emit (ClientMsg.rejectCall callId (some fromUserId))]) ∧
    LobbyManager.autoRejectTimeout
        (LobbyManager.acceptIncomingCall
          (LobbyManager.handleIncomingCall fromUserId fromUserName callId p).1).1 =
      ((LobbyManager.acceptIncomingCall
          (LobbyManager.handleIncomingCall fromUserId fromUserName callId p).1).1, []) ∧
    LobbyManager.autoRejectTimeout
        (LobbyManager.rejectIncomingCall
          (LobbyManager.handleIncomingCall fromUserId fromUserName callId p).1).1 =
      ((LobbyManager.rejectIncomingCall
          (LobbyManager.handleIncomingCall fromUserId fromUserName callId p).1).1, []) ∧
    (∀ (q : Page) (activeCall : ActiveCall), q.lobbyManager.callState = "ringing" →
      q.lobbyManager.activeCall = some activeCall →
      LobbyManager.autoRejectTimeout q =
        (⟨{ currentUser := q.lobbyManager.currentUser
            callState := "idle"
            activeCall := none }, q.videoChat⟩,
          [Effect.emit (ClientMsg.rejectCall activeCall.callId activeCall.fromUserId)])) ∧
    (∀ q : Page, q.lobbyManager.callState ≠ "ringing" →
      LobbyManager.autoRejectTimeout q = (q, [])) := by
  refine ⟨rfl, ?_, ?_, ?_, ?_, ?_⟩
  · simp [LobbyManager.autoRejectTimeout, LobbyManager.rejectIncomingCall,
      LobbyManager.resetCallState, LobbyManager.handleIncomingCall]
  · simp [LobbyManager.autoRejectTimeout, LobbyManager.acceptIncomingCall,
      LobbyManager.handleIncomingCall]
  · simp [LobbyManager.autoRejectTimeout, LobbyManager.rejectIncomingCall,
      LobbyManager.resetCallState, LobbyManager.handleIncomingCall]
  · intro q activeCall hring hac
    simp [LobbyManager.autoRejectTimeout, LobbyManager.rejectIncomingCall,
      LobbyManager.resetCallState, hring, hac]
  · intro q h
    simp [LobbyManager.autoRejectTimeout, h]

/-- Witness for C19: the call "c1" of Alice arrives in Bob's tab, which arms
the 30000 ms timer; the timer runs while the tab still rings; and it runs
after Bob has accepted. -/
theorem autoReject_timer_witness :
    LobbyManager.handleIncomingCall "1" "Alice" "c1" bobCamera =
      (⟨{ currentUser := bobUser, callState := "ringing",
          activeCall := some ⟨none, none, some "1", some "Alice", "c1", none⟩ },
          bobCamera.videoChat⟩,
        [Effect.setTimeout 30000]) ∧
    LobbyManager.autoRejectTimeout bobRinging =
      (⟨{ currentUser := bobUser, callState := "idle", activeCall := none },
          bobRinging.videoChat⟩,
        [Effect.emit (ClientMsg.rejectCall "c1" (some "1"))]) ∧
    LobbyManager.autoRejectTimeout bobInCall = (bobInCall, []) :=
  ⟨(autoReject_timer "1" "Alice" "c1" bobCamera).1,
   (autoReject_timer "1" "Alice" "c1" bobCamera).2.2.2.2.1 bobRinging
      ⟨none, none, some "1", some "Alice", "c1", none⟩ (by decide) (by decide),
   (autoReject_timer "1" "Alice" "c1" bobCamera).2.2.2.2.2 bobInCall (by decide)⟩

/-- The local end-call action does tear the peer connection down: in Bob's tab
during call "c1" (camera on, peer connection 1 open) `LobbyManager.endCurrentCall`
returns with callState 'idle', activeCall `null` and peer connection 1 closed
and set to `null`. -/
theorem local_endCall_closes_peer :
    LobbyManager.endCurrentCall 5 bobInCall =
      some
        (⟨{ currentUser := bobUser, callState := "idle", activeCall := none },
            { myStream := false, peerConnection := none, friendInfo := none }⟩,
          [ Effect.emit (ClientMsg.endCall "c1"), Effect.stopTracks,
            Effect.emit (ClientMsg.endCall "c1"), Effect.closePeer 1 ]) := by
  decide

/-- The listeners of `call-ended` and `call-rejected` never touch `VideoChat`
and never close a peer connection. -/
theorem call_listeners_keep_videoChat (message : String) (p : Page) :
    (LobbyManager.onCallEnded message p).1.videoChat = p.videoChat ∧
    (LobbyManager.onCallRejected message p).1.videoChat = p.videoChat ∧
    (∀ pc, Effect.closePeer pc ∉ (LobbyManager.onCallEnded message p).2) ∧
    (∀ pc, Effect.closePeer pc ∉ (LobbyManager.onCallRejected message p).2) := by
  simp [LobbyManager.onCallEnded, LobbyManager.onCallRejected, LobbyManager.resetCallState]

/-- C20, the code at a failing input: Bob's tab is in call "c1" with peer
connection 1 open and receives `call-ended` (or `call-rejected`). The listener
only resets the lobby: callState is 'idle' and activeCall `null`, but the peer
connection is still 1 and `close()` was not called on it. -/
theorem callEnded_leaves_peer_open :
    bobInCall.videoChat.peerConnection = some 1 ∧
    LobbyManager.onCallEnded "Call ended" bobInCall =
      (⟨{ currentUser := bobUser, callState := "idle", activeCall := none },
          { myStream := true, peerConnection := some 1, friendInfo := some ("1", "Alice") }⟩,
        [Effect.alert "📞 Call ended: Call ended"]) ∧
    LobbyManager.onCallRejected "Call was rejected" bobInCall =
      (⟨{ currentUser := bobUser, callState := "idle", activeCall := none },
          { myStream := true, peerConnection := some 1, friendInfo := some ("1", "Alice") }⟩,
        [Effect.alert "❌ Call rejected: Call was rejected"]) := by
  decide

/-! ## Peer negotiation engine -/

/-- C22, as stated, fails: on one peer connection the ICE state goes to
'failed', recovers, and goes to 'failed' again; `restartIce` is called
twice. -/
theorem ice_restart_twice :
    VideoChat.iceTransitions 1 ["checking", "failed", "checking", "connected",
        "disconnected", "failed"] =
      [Effect.restartIce 1, Effect.restartIce 1] := by
  decide

/-- C22, amended: for every sequence of ICE connection-state transitions on
one peer connection the handler does nothing but call `restartIce`, and it
calls it once for every transition to 'failed': as often as 'failed' occurs in
the sequence. -/
theorem ice_restart_on_every_failure (pc : Nat) (states : List String) :
    VideoChat.iceTransitions pc states =
      List.replicate (states.count "failed") (Effect.restartIce pc) := by
  induction states with
  | nil => rfl
  | cons s rest ih =>
    unfold VideoChat.iceTransitions at ih ⊢
    rw [List.flatMap_cons, ih]
    by_cases hf : s = "failed"
    · subst hf
      simp [VideoChat.iceConnectionStateChanged, List.replicate_succ]
    · have hne : ("failed" : String) ≠ s := fun h => hf h.symm
      rw [List.count_cons_of_ne hne]
      simp only [VideoChat.iceConnectionStateChanged, hf, if_false]
      split <;> rfl

/-! ## Sign detector -/

/-- C27, the code at a failing input: with empty text, `addText("HELLO")`
twice gives "HELLO HELLO ": the text ends with the space that follows the
word, so `endsWith(word)` is false and the second call appends again. -/
theorem addText_twice_appends_twice :
    SignLanguageDetector.addText "HELLO" "" = "HELLO " ∧
    jsEndsWith "HELLO " "HELLO" = false ∧
    SignLanguageDetector.addText "HELLO" (SignLanguageDetector.addText "HELLO" "") =
      "HELLO HELLO " := by
  decide

/-! ## Peer connections of the engine -/

/-- C21: from a page that holds no peer connection, every run of the engine
(`startCallWithUser`, `handleWebRTCSignal`, `endCurrentCall`, `stopMyCamera`,
`cleanup`, the camera starting, any change of the lobby part) returns, and
afterwards the constructed peer connections that are not closed are exactly
the one the page holds, so at most one; and every `new RTCPeerConnection` in
the run happens when none is unclosed. -/
theorem engine_holds_one_peer (p0 : Page) (evs : List EngineEvent)
    (h0 : p0.videoChat.peerConnection = none) :
    ∃ p out, engineRun p0 evs = some (p, out) ∧
      openPeers [] out = p.videoChat.peerConnection.toList ∧
      (openPeers [] out).length ≤ 1 ∧
      createsWhenNoneOpen [] out = true := by
  obtain ⟨p, out, hrun, hopen, hcreate⟩ := engineRun_keeps_one_peer evs p0
  rw [h0] at hopen hcreate
  refine ⟨p, out, hrun, hopen, ?_, hcreate⟩
  rw [show openPeers [] out = p.videoChat.peerConnection.toList from hopen]
  cases p.videoChat.peerConnection <;> simp

/-- Witness for C21: the run `engineTrace` in Alice's tab with the camera on
constructs three peer connections and closes each of them. -/
theorem engine_holds_one_peer_witness :
    (engineRun aliceCamera engineTrace).map Prod.snd =
      some
        [ Effect.createPeer 1, Effect.createOffer 1 "2",
          Effect.closePeer 1, Effect.createPeer 2, Effect.createOffer 2 "2",
          Effect.closePeer 2,
          Effect.createPeer 3, Effect.applySignal 3 "2" (Signal.offer "sdp"),
          Effect.applySignal 3 "2" (Signal.candidate "cand"),
          Effect.stopTracks, Effect.closePeer 3 ] ∧
    ∃ p out, engineRun aliceCamera engineTrace = some (p, out) ∧
      openPeers [] out = p.videoChat.peerConnection.toList ∧
      (openPeers [] out).length ≤ 1 ∧
      createsWhenNoneOpen [] out = true :=
  ⟨by decide, engine_holds_one_peer aliceCamera engineTrace rfl⟩

/-! ## Order of the roster -/

/-- C25: after any sequence of lobby events from an empty registry the roster
lists exactly the connections with an effective join, in the order of those
joins (for a connection that joined again without leaving its first join, for
one that left and joined again the later join); and `updateUserStatus` changes
neither the order nor the identity (socketId, userId, userName) of the
entries. -/
theorem roster_in_join_order (sockets : JsMap SocketId (List String))
    (evs : List (SocketId × LobbyEvent)) :
    ((getUsersList (runLobbyEvents ⟨JsMap.empty, sockets⟩ evs).onlineUsers).map
        User.socketId).Pairwise
      (fun a b => ∃ i j, joinedAt evs a = some i ∧ joinedAt evs b = some j ∧ i < j) ∧
    (∀ c,
      c ∈ (getUsersList (runLobbyEvents ⟨JsMap.empty, sockets⟩ evs).onlineUsers).map
          User.socketId ↔
        ∃ i, joinedAt evs c = some i) ∧
    (∀ (onlineUsers : JsMap SocketId User) (c : SocketId) (s : String),
      (getUsersList (updateUserStatus onlineUsers c s)).map
          (fun u => (u.socketId, u.userId, u.userName)) =
        (getUsersList onlineUsers).map (fun u => (u.socketId, u.userId, u.userName))) := by
  obtain ⟨hA, _, hC⟩ := keys_in_join_order sockets evs
  rw [roster_socketIds_of_run]
  refine ⟨hC, hA, ?_⟩
  intro onlineUsers c s
  have h := congrArg (List.map Prod.snd) (roster_order_updateUserStatus onlineUsers c s)
  simp only [List.map_map] at h
  rw [getUsersList_eq_values, getUsersList_eq_values]
  unfold JsMap.values
  simp only [List.map_map]
  exact h

/-- Witness for C25: after `orderTrace` the roster lists Alice (first join,
event 0), Carol (event 2) and Bob (his join after leaving, event 5). -/
theorem roster_in_join_order_witness :
    (getUsersList (runLobbyEvents ServerState.init orderTrace).onlineUsers).map User.socketId =
      [sockA, sockC, sockB] ∧
    joinedAt orderTrace sockA = some 0 ∧ joinedAt orderTrace sockC = some 2 ∧
    joinedAt orderTrace sockB = some 5 ∧
    ((getUsersList (runLobbyEvents ⟨JsMap.empty, JsMap.empty⟩ orderTrace).onlineUsers).map
        User.socketId).Pairwise
      (fun a b => ∃ i j, joinedAt orderTrace a = some i ∧ joinedAt orderTrace b = some j ∧
        i < j) :=
  ⟨by decide, by decide, by decide, by decide,
   (roster_in_join_order JsMap.empty orderTrace).1⟩

/-! ## Call setup end to end -/

/-- C23, the code at a failing input. Alice's tab generates callId
"1700000000000-4fzyo82mv" and sends it in `request-call`; the server relays
the request with the callId it generates itself, "1700000000123-k3j9x0q1z";
Bob's tab keeps that one, accepts with it, and the server names the room
after it and sends `call-started` to both. After both tabs handled
`call-started`, Alice's activeCall still holds her own callId, which differs
from Bob's and from the one of `call-started`, and an `end-call` from Alice
names a room nobody is in: `call-ended` reaches no one. -/
theorem callId_differs_between_sides :
    LobbyManager.requestCall env0 true "2" "Bob" aliceCamera =
      (⟨{ currentUser := aliceUser, callState := "requesting",
           activeCall := some ⟨some "2", some "Bob", none, none,
             "1700000000000-4fzyo82mv", none⟩ }, aliceCamera.videoChat⟩,
        [Effect.emit
          (ClientMsg.requestCall "2" "1" (some "Alice") "1700000000000-4fzyo82mv")]) ∧
    (requestCall env1 sockA ⟨"2", "1", "Alice", "1700000000000-4fzyo82mv"⟩ lobbyAB).2 =
      [ ⟨Target.room "sB",
          Msg.incomingCall "1" "Alice" "1700000000123-k3j9x0q1z" "2023-11-14T22:13:20.123Z",
          [sockB]⟩,
        ⟨Target.socket sockA, Msg.callRequestSent "2" "Call request sent!", [sockA]⟩ ] ∧
    LobbyManager.acceptIncomingCall
        (LobbyManager.handleIncomingCall "1" "Alice" "1700000000123-k3j9x0q1z" bobCamera).1 =
      (⟨{ currentUser := bobUser, callState := "in-call",
           activeCall := some ⟨none, none, some "1", some "Alice",
             "1700000000123-k3j9x0q1z", none⟩ }, bobCamera.videoChat⟩,
        [Effect.emit (ClientMsg.acceptCall "1700000000123-k3j9x0q1z" (some "1") "2")]) ∧
    (acceptCall sockB ⟨"1700000000123-k3j9x0q1z", "1", "2"⟩ requestedAB).2.head? =
      some ⟨Target.room "call-1700000000123-k3j9x0q1z",
        Msg.callStarted "1700000000123-k3j9x0q1z" "call-1700000000123-k3j9x0q1z" usersAB,
        [sockA, sockB]⟩ ∧
    LobbyManager.handleCallStarted 1 "call-1700000000123-k3j9x0q1z" usersAB
        (LobbyManager.requestCall env0 true "2" "Bob" aliceCamera).1 =
      Except.ok
        (⟨{ currentUser := aliceUser, callState := "in-call",
             activeCall := some ⟨some "2", some "Bob", none, none,
               "1700000000000-4fzyo82mv", some "call-1700000000123-k3j9x0q1z"⟩ },
            { myStream := true, peerConnection := some 1, friendInfo := some ("2", "Bob") }⟩,
          [Effect.createPeer 1, Effect.createOffer 1 "2"]) ∧
    LobbyManager.handleCallStarted 2 "call-1700000000123-k3j9x0q1z" usersAB
        (LobbyManager.acceptIncomingCall
          (LobbyManager.handleIncomingCall "1" "Alice" "1700000000123-k3j9x0q1z"
            bobCamera).1).1 =
      Except.ok
        (⟨{ currentUser := bobUser, callState := "in-call",
             activeCall := some ⟨none, none, some "1", some "Alice",
               "1700000000123-k3j9x0q1z", some "call-1700000000123-k3j9x0q1z"⟩ },
            { myStream := true, peerConnection := some 2, friendInfo := some ("1", "Alice") }⟩,
          [Effect.createPeer 2, Effect.createOffer 2 "1"]) ∧
    "1700000000000-4fzyo82mv" ≠ "1700000000123-k3j9x0q1z" ∧
    (endCall sockA ⟨"1700000000000-4fzyo82mv"⟩ acceptedAB).2.head? =
      some ⟨Target.room "call-1700000000000-4fzyo82mv",
        Msg.callEnded "1700000000000-4fzyo82mv" "Call ended", []⟩ :=
  ⟨by decide, by decide, by decide, by decide, rfl, rfl, by decide, by decide⟩

/-- The listener of `call-ended` emits nothing on the socket. -/
theorem onCallEnded_emits_nothing (message : String) (p : Page) (msg : ClientMsg) :
    Effect.emit msg ∉ (LobbyManager.onCallEnded message p).2 := by
  simp [LobbyManager.onCallEnded]

/-- C24, the code at a failing input: Alice and Bob are in call "c1" and
Alice sends `end-call`. Bob's connection receives `call-ended`; his tab
answers with an alert and a reset of its call state and sends no `end-call`;
in the registry Bob's status is still 'in-call'. -/
theorem callEnded_not_answered_with_endCall :
    (endCall sockA ⟨"c1"⟩ callAB).2.head? =
      some ⟨Target.room "call-c1", Msg.callEnded "c1" "Call ended", [sockA, sockB]⟩ ∧
    (LobbyManager.onCallEnded "Call ended" bobInCall).2 =
      [Effect.alert "📞 Call ended: Call ended"] ∧
    (LobbyManager.onCallEnded "Call ended" bobInCall).1.lobbyManager.activeCall = none ∧
    (endCall sockA ⟨"c1"⟩ callAB).1.onlineUsers.get sockB =
      some ⟨sockB, "2", "Bob", "in-call", false⟩ := by
  decide

/-- C26, the code at a failing input: Bob accepted Alice's call "c1"; his
camera is on and he holds no peer connection. When his tab handles
`call-started` it constructs peer connection 2 and starts creating an offer
for Alice (uid 1), which it then sends as a `webrtc-signal`; Alice's offer,
arriving afterwards, goes to that peer connection and `handleIncomingOffer`
is not run. -/
theorem callee_also_creates_offer :
    bobAccepted.videoChat.peerConnection = none ∧
    LobbyManager.handleCallStarted 2 "call-c1" usersAB bobAccepted =
      Except.ok
        (⟨{ currentUser := bobUser, callState := "in-call",
             activeCall := some ⟨none, none, some "1", some "Alice", "c1", some "call-c1"⟩ },
            { myStream := true, peerConnection := some 2, friendInfo := some ("1", "Alice") }⟩,
          [Effect.createPeer 2, Effect.createOffer 2 "1"]) ∧
    VideoChat.offerCreated "1" "sdp-of-bob"
        ⟨{ currentUser := bobUser, callState := "in-call",
           activeCall := some ⟨none, none, some "1", some "Alice", "c1", some "call-c1"⟩ },
          { myStream := true, peerConnection := some 2, friendInfo := some ("1", "Alice") }⟩ =
      [Effect.emit (ClientMsg.webrtcSignal "1" (Signal.offer "sdp-of-bob") (some "c1"))] ∧
    VideoChat.handleWebRTCSignal 3 "1" (Signal.offer "sdp-of-alice")
        ⟨{ currentUser := bobUser, callState := "in-call",
           activeCall := some ⟨none, none, some "1", some "Alice", "c1", some "call-c1"⟩ },
          { myStream := true, peerConnection := some 2, friendInfo := some ("1", "Alice") }⟩ =
      (⟨{ currentUser := bobUser, callState := "in-call",
           activeCall := some ⟨none, none, some "1", some "Alice", "c1", some "call-c1"⟩ },
          { myStream := true, peerConnection := some 2, friendInfo := some ("1", "Alice") }⟩,
        [Effect.applySignal 2 "1" (Signal.offer "sdp-of-alice")]) :=
  ⟨by decide, rfl, by decide, by decide⟩

/-! ## Lobby client: `call-started`, timers, local end -/

/-- C28, the code at a failing input: Alice requests a call to Bob, an
incoming call of Carol overwrites her active call, and Alice rejects it: her
tab is 'idle' with activeCall `null`. When `call-started` for her own request
arrives, `handleCallStarted` sets callState to 'in-call' and then throws on
`this.activeCall.roomId`. -/
theorem handleCallStarted_throws_without_activeCall :
    (LobbyManager.rejectIncomingCall
        (LobbyManager.handleIncomingCall "3" "Carol" "c9"
          (LobbyManager.requestCall env0 true "2" "Bob" aliceIdle).1).1).1 = aliceIdle ∧
    LobbyManager.handleCallStarted 1 "call-1700000000123-k3j9x0q1z" usersAB aliceIdle =
      Except.error
        ("TypeError: cannot set roomId of null",
          ⟨{ currentUser := aliceUser, callState := "in-call", activeCall := none },
            aliceIdle.videoChat⟩) :=
  ⟨by decide, rfl⟩

/-- C29, the code at a failing input: the call "c1" of Alice rings and Bob
rejects it; then the call "c2" of Carol rings. When the timer that "c1"
started fires, the tab is 'ringing' for "c2", and the callback rejects
"c2". -/
theorem stale_timer_rejects_newer_call :
    (lobbyRun bobCamera
        [ LobbyInput.incomingCall "1" "Alice" "c1", LobbyInput.reject,
          LobbyInput.incomingCall "3" "Carol" "c2" ]).lobbyManager =
      { currentUser := bobUser, callState := "ringing",
        activeCall := some ⟨none, none, some "3", some "Carol", "c2", none⟩ } ∧
    (lobbyStep
        (lobbyRun bobCamera
          [ LobbyInput.incomingCall "1" "Alice" "c1", LobbyInput.reject,
            LobbyInput.incomingCall "3" "Carol" "c2" ])
        (LobbyInput.timerFired "c1")).2 =
      [Effect.emit (ClientMsg.rejectCall "c2" (some "3"))] ∧
    "c2" ≠ "c1" := by
  decide

/-- C30, the code at a failing input: in Bob's tab during call "c1", with the
camera on and peer connection 1 open, `LobbyManager.endCurrentCall` returns
for every fuel from 5 on, and it has emitted `end-call` for "c1" twice: once
itself and once in the call that `VideoChat.endCurrentCall` makes back into
it before the call state is reset. -/
theorem local_endCall_emits_twice (n : Nat) :
    LobbyManager.endCurrentCall (n + 5) bobInCall =
      some
        (⟨{ currentUser := bobUser, callState := "idle", activeCall := none },
            { myStream := false, peerConnection := none, friendInfo := none }⟩,
          [ Effect.emit (ClientMsg.endCall "c1"), Effect.stopTracks,
            Effect.emit (ClientMsg.endCall "c1"), Effect.closePeer 1 ]) :=
  lobby_endCurrentCall_in_call n bobInCall ⟨none, none, some "1", some "Alice", "c1",
    some "call-c1"⟩ 1 rfl rfl rfl

end SignSync
